import Mathlib

/-!
# 2048.c : the board transformation and merge engine

A shallow embedding of `src/2048.c`.  A row or column is a `List Nat` of
length `SIZE`, a board is a list of `SIZE` columns (`board[x][y]`, column
major).  Cells are `uint8_t` in the source: the only arithmetic on a cell is
`array[t]++`, embedded as `(v + 1) % 256`.  The score is a `uint32_t`: every
addition to it is taken `% 2 ^ 32`.
-/

namespace Game2048

/-- The compile-time constant `SIZE`. -/
def SIZE : Nat := 4

/-- A row (or column) of ranks: `uint8_t array[SIZE]`. -/
abbrev Row := List Nat

/-- The board `uint8_t board[SIZE][SIZE]`, indexed `board[x][y]`. -/
abbrev Board := List (List Nat)

/-- Read `array[i]`. -/
def rd (array : Row) (i : Nat) : Nat := array.getD i 0

/-- Write `array[i] = v`. -/
def wr (array : Row) (i v : Nat) : Row := array.set i v

/-- Read `board[x][y]`. -/
def rd2 (board : Board) (x y : Nat) : Nat := rd (board.getD x []) y

/-- Write `board[x][y] = v`. -/
def wr2 (board : Board) (x y v : Nat) : Board :=
  board.set x (wr (board.getD x []) y v)

/-- A row of the right shape: `SIZE` cells. -/
def WfRow (array : Row) : Prop := array.length = SIZE

/-- A board of the right shape: `SIZE` columns of `SIZE` cells. -/
def WfBoard (board : Board) : Prop :=
  board.length = SIZE ∧ ∀ col ∈ board, col.length = SIZE

instance (array : Row) : Decidable (WfRow array) := by
  unfold WfRow; exact inferInstance

instance (board : Board) : Decidable (WfBoard board) := by
  unfold WfBoard; exact inferInstance

/-- The value of the C expression `1 << n` once converted to `uint32_t`.
For `n <= 30` this is the C value `2 ^ n`; for larger `n` the C shift is
undefined and the embedding takes the mathematical shift truncated to 32
bits. -/
def shl1 (n : Nat) : Nat := 2 ^ n % 2 ^ 32

/-- One iteration of the body of the `for (t = x - 1;; t--)` loop of
`findTarget` at index `t`: `some r` when the body returns `r`, `none` when
the loop goes on to `t--`. -/
def scanCell (array : Row) (x stop t : Nat) : Option Nat :=
  if rd array t ≠ 0 then
    if rd array t ≠ rd array x then some (t + 1) else some t
  else
    if t = stop then some t else none

/-- The loop `for (t = x - 1;; t--)` of `findTarget`, entered at index `t`.
The loop has no lower bound: when the body at `t = 0` does not return, the
`uint8_t` index wraps to 255 and the next read is outside the row; that
outcome is `none`. -/
def findTargetFrom (array : Row) (x stop : Nat) : Nat → Option Nat
  | 0 => scanCell array x stop 0
  | t + 1 =>
    match scanCell array x stop (t + 1) with
    | some r => some r
    | none => findTargetFrom array x stop t

/-- The function `findTarget`: the index the entry at `x` moves to. -/
def findTarget (array : Row) (x stop : Nat) : Option Nat :=
  if x = 0 then some x else findTargetFrom array x stop (x - 1)

/-- The local state of `slideArray`: the row, `*score`, `success`, `stop`. -/
structure SlideState where
  array : Row
  score : Nat
  success : Bool
  stop : Nat
deriving DecidableEq, Repr

/-- The body of the `for (x = 0; x < SIZE; x++)` loop of `slideArray`. -/
def slideStep (st : SlideState) (x : Nat) : Option SlideState :=
  if rd st.array x ≠ 0 then
    match findTarget st.array x st.stop with
    | none => none
    | some t =>
      if t ≠ x then
        let st1 : SlideState :=
          if rd st.array t = 0 then
            { st with array := wr st.array t (rd st.array x) }
          else if rd st.array t = rd st.array x then
            let array1 := wr st.array t ((rd st.array t + 1) % 256)
            { st with array := array1,
                      score := (st.score + shl1 (rd array1 t)) % 2 ^ 32,
                      stop := t + 1 }
          else st
        some { st1 with array := wr st1.array x 0, success := true }
      else some st
  else some st

/-- Run a loop body over the given indices, stopping at the first failure. -/
def loopM {σ : Type} (body : σ → Nat → Option σ) : List Nat → σ → Option σ
  | [], st => some st
  | x :: xs, st =>
    match body st x with
    | none => none
    | some st1 => loopM body xs st1

/-- The function `slideArray`: the row afterwards, the score afterwards and
the returned flag. -/
def slideArray (array : Row) (score : Nat) : Option (Row × Nat × Bool) :=
  match loopM slideStep (List.range SIZE)
      { array := array, score := score, success := false, stop := 0 } with
  | none => none
  | some st => some (st.array, st.score, st.success)

/-- One pass of the inner loop body of `rotateBoard`: the four symmetric
cells of ring `i` at offset `j` are cycled through `tmp`. -/
def rotateCycle (board : Board) (i j : Nat) : Board :=
  let n := SIZE
  let tmp := rd2 board i j
  let b1 := wr2 board i j (rd2 board j (n - i - 1))
  let b2 := wr2 b1 j (n - i - 1) (rd2 b1 (n - i - 1) (n - j - 1))
  let b3 := wr2 b2 (n - i - 1) (n - j - 1) (rd2 b2 (n - j - 1) i)
  wr2 b3 (n - j - 1) i tmp

/-- The function `rotateBoard`: `for (i = 0; i < n / 2; i++)`,
`for (j = i; j < n - i - 1; j++)`. -/
def rotateBoard (board : Board) : Board :=
  (List.range (SIZE / 2)).foldl
    (fun b i => (List.range' i (SIZE - i - 1 - i)).foldl (fun b1 j => rotateCycle b1 i j) b)
    board

/-- The state of the loop of `moveUp`: the board, `*score`, `success`. -/
abbrev MoveState := Board × Nat × Bool

/-- The body of the loop of `moveUp`: `success |= slideArray(board[x], score)`. -/
def moveUpStep (st : MoveState) (x : Nat) : Option MoveState :=
  match slideArray (st.1.getD x []) st.2.1 with
  | none => none
  | some (col, score1, flag) => some (st.1.set x col, score1, st.2.2 || flag)

/-- The function `moveUp`: the board afterwards, the score afterwards and the
returned flag. -/
def moveUp (board : Board) (score : Nat) : Option MoveState :=
  loopM moveUpStep (List.range SIZE) (board, score, false)

/-- The function `moveLeft`. -/
def moveLeft (board : Board) (score : Nat) : Option MoveState :=
  match moveUp (rotateBoard board) score with
  | none => none
  | some (b, s, flag) => some (rotateBoard (rotateBoard (rotateBoard b)), s, flag)

/-- The function `moveDown`. -/
def moveDown (board : Board) (score : Nat) : Option MoveState :=
  match moveUp (rotateBoard (rotateBoard board)) score with
  | none => none
  | some (b, s, flag) => some (rotateBoard (rotateBoard b), s, flag)

/-- The function `moveRight`. -/
def moveRight (board : Board) (score : Nat) : Option MoveState :=
  match moveUp (rotateBoard (rotateBoard (rotateBoard board))) score with
  | none => none
  | some (b, s, flag) => some (rotateBoard b, s, flag)

/-- The function `findPairDown`: the nested loops return `true` at the first
`board[x][y] == board[x][y + 1]` and `false` when there is none. -/
def findPairDown (board : Board) : Bool :=
  (List.range SIZE).any fun x =>
    (List.range (SIZE - 1)).any fun y => rd2 board x y == rd2 board x (y + 1)

/-- The function `countEmpty`. -/
def countEmpty (board : Board) : Nat :=
  (List.range SIZE).foldl
    (fun count x =>
      (List.range SIZE).foldl
        (fun count1 y => if rd2 board x y = 0 then count1 + 1 else count1) count)
    0

/-- The function `gameEnded`: the board as the call leaves it and the
returned value. -/
def gameEnded (board : Board) : Board × Bool :=
  if countEmpty board > 0 then (board, false)
  else if findPairDown board then (board, false)
  else
    let b1 := rotateBoard board
    let ended := if findPairDown b1 then false else true
    (rotateBoard (rotateBoard (rotateBoard b1)), ended)

/-- The first loop nest of `addRandom`: the positions of the empty slots, in
the order they are stored in `list`. -/
def emptyCells (board : Board) : List (Nat × Nat) :=
  (List.range SIZE).foldl
    (fun list x =>
      (List.range SIZE).foldl
        (fun list1 y => if rd2 board x y = 0 then list1 ++ [(x, y)] else list1) list)
    []

/-- The function `addRandom`, with the values of its two `rand()` calls as
arguments `draw1` and `draw2` (no draw is made when `len` is 0). -/
def addRandom (board : Board) (draw1 draw2 : Nat) : Board :=
  let list := emptyCells board
  let len := list.length
  if len > 0 then
    let r := draw1 % len
    let x := (list.getD r (0, 0)).1
    let y := (list.getD r (0, 0)).2
    let n := (draw2 % 10) / 9 + 1
    wr2 board x y n
  else board

/-- The directions of the four move functions. -/
inductive Dir where
  | up | left | down | right
deriving DecidableEq, Repr

/-- The move function of a direction, as dispatched by the `switch` of `main`. -/
def applyMove : Dir → Board → Nat → Option MoveState
  | Dir.up => moveUp
  | Dir.left => moveLeft
  | Dir.down => moveDown
  | Dir.right => moveRight

/-- The merge delta of one move: the score the move returns when it is
started from score 0. -/
def moveDelta (dir : Dir) (board : Board) : Nat :=
  match applyMove dir board 0 with
  | some r => r.2.1
  | none => 0

/-- A sequence of moves, each made on the board the previous one left: per
move its merge delta and the score after it. -/
def runMoves : List Dir → Board → Nat → Option (List (Nat × Nat))
  | [], _, _ => some []
  | dir :: dirs, board, score =>
    match applyMove dir board score with
    | none => none
    | some (b1, s1, _) =>
      match runMoves dirs b1 s1 with
      | none => none
      | some trace => some ((moveDelta dir board, s1) :: trace)

/-- The table `data` of `testSucceed`: per line the row in, the row expected
and the points expected. -/
def testData : List (Row × Row × Nat) :=
  [ ([0, 0, 0, 1], [1, 0, 0, 0], 0),
    ([0, 0, 1, 1], [2, 0, 0, 0], 4),
    ([0, 1, 0, 1], [2, 0, 0, 0], 4),
    ([1, 0, 0, 1], [2, 0, 0, 0], 4),
    ([1, 0, 1, 0], [2, 0, 0, 0], 4),
    ([1, 1, 1, 0], [2, 1, 0, 0], 4),
    ([1, 0, 1, 1], [2, 1, 0, 0], 4),
    ([1, 1, 0, 1], [2, 1, 0, 0], 4),
    ([1, 1, 1, 1], [2, 2, 0, 0], 8),
    ([2, 2, 1, 1], [3, 2, 0, 0], 12),
    ([1, 1, 2, 2], [2, 3, 0, 0], 12),
    ([3, 0, 1, 1], [3, 2, 0, 0], 4),
    ([2, 0, 1, 1], [2, 2, 0, 0], 4) ]

/-! ## Reference definitions, written from the specification -/

/-- Reference merge scan over the non-empty ranks: from index 0, a pair of
equal neighbours `u, u` becomes a single `u + 1` worth `2 ^ (u + 1)` points and
the scan goes on behind the pair, so no tile takes part in two merges. -/
def mergeScan : List Nat → List Nat × Nat
  | u :: v :: rest =>
    if u = v then ((u + 1) :: (mergeScan rest).1, 2 ^ (u + 1) + (mergeScan rest).2)
    else (u :: (mergeScan (v :: rest)).1, (mergeScan (v :: rest)).2)
  | l => (l, 0)

/-- Reference slide: the non-empty ranks in index order, merged by
`mergeScan`, padded with zeros to length `SIZE`; with the score delta. -/
def slideRef (row : Row) : Row × Nat :=
  let m := mergeScan (row.filter fun v => v ≠ 0)
  (m.1 ++ List.replicate (SIZE - m.1.length) 0, m.2)


/-- The row `y` of the board read from column 0: `board[0][y], ..., board[3][y]`. -/
def rowOf (board : Board) (y : Nat) : Row :=
  (List.range SIZE).map fun x => rd2 board x y

/-- The rows of the board, row 0 first. -/
def rowsOf (board : Board) : List Row :=
  (List.range SIZE).map (rowOf board)

/-- The board whose rows, row 0 first and each read from column 0, are `rows`. -/
def ofRows (rows : List Row) : Board :=
  (List.range SIZE).map fun x => (List.range SIZE).map fun y => rd (rows.getD y []) x

/-- Each line slid on its own by `slideArray` from score 0: the lines
afterwards, the sum of their score deltas and the OR of their flags. -/
def slideLines : List Row → Option (List Row × Nat × Bool)
  | [] => some ([], 0, false)
  | line :: rest =>
    match slideArray line 0, slideLines rest with
    | some (r, delta, flag), some (rs, deltas, flags) => some (r :: rs, delta + deltas, flag || flags)
    | _, _ => none

/-- The four lines a move slides, each listed from the end the tiles move
to: the columns from row 0 for up, the columns from row 3 for down, the rows
from column 0 for left, the rows from column 3 for right. -/
def linesOf : Dir → Board → List Row
  | Dir.up, board => board
  | Dir.down, board => board.map List.reverse
  | Dir.left, board => rowsOf board
  | Dir.right, board => (rowsOf board).map List.reverse

/-- The board, in its original orientation, whose lines for the direction
are `lines`. -/
def unlines : Dir → List Row → Board
  | Dir.up, lines => lines
  | Dir.down, lines => lines.map List.reverse
  | Dir.left, lines => ofRows lines
  | Dir.right, lines => ofRows (lines.map List.reverse)

/-- A move made directly: each line of the direction is replaced by its own
slide, the score grows by the sum of the four deltas (in `uint32_t`), the
flag is the OR of the four flags. -/
def moveDirect (dir : Dir) (board : Board) (score : Nat) : Option MoveState :=
  (slideLines (linesOf dir board)).map fun r =>
    (unlines dir r.1, (score + r.2.1) % 2 ^ 32, r.2.2)

/-! ## Predicates used in the statements -/

/-- A row no slide can change: no tile has an empty cell or an equal tile
right before it. -/
def Stuck (row : Row) : Prop :=
  ∀ i, i < SIZE - 1 → rd row (i + 1) ≠ 0 → rd row i ≠ 0 ∧ rd row i ≠ rd row (i + 1)

/-- The result of a move reports a change exactly: it returns, the flag is
true exactly when the board afterwards differs from the board before, and
when the flag is false the score is unchanged as well. -/
def ReportsChange (result : Option MoveState) (board : Board) (score : Nat) : Prop :=
  ∃ b s flag, result = some (b, s, flag) ∧ (flag = true ↔ b ≠ board) ∧ (flag = false → s = score)

/-- After the move the spawn has room: the move returns, and when its flag
is true the board it leaves has an empty cell, so the list of empty slots
that `addRandom` collects has `len > 0`. -/
def SpawnHasRoom (result : Option MoveState) : Prop :=
  ∃ b s flag, result = some (b, s, flag) ∧
    (flag = true → (∃ x y, x < 4 ∧ y < 4 ∧ rd2 b x y = 0) ∧ 0 < (emptyCells b).length)

/-- The displayed value of a cell: `2 ^ rank`, and nothing for an empty cell. -/
def cellValue (v : Nat) : Nat := if v = 0 then 0 else 2 ^ v

/-- The total tile value of a list of lines (or of a board): the sum of
`2 ^ rank` over the non-empty cells. -/
def totalValue (lines : List Row) : Nat := (lines.flatten.map cellValue).sum

/-- What a cell counts for as a tile: 1, and 0 for an empty cell. -/
def cellTile (v : Nat) : Nat := if v = 0 then 0 else 1

/-- The number of tiles of a list of lines (or of a board). -/
def tileCount (lines : List Row) : Nat := (lines.flatten.map cellTile).sum

/-- The move conserves the tiles: it returns, the total tile value afterwards
is the one before and the number of tiles is not larger. -/
def ConservesValue (result : Option MoveState) (board : Board) : Prop :=
  ∃ b s flag, result = some (b, s, flag) ∧ totalValue b = totalValue board ∧
    tileCount b ≤ tileCount board

/-- The calls of `findTarget` that the loop of `slideArray` makes over the
indices `xs` from the state `st`: per call the row as it is at the call, `x`
and `stop`.  A call is made at every position that is not empty; nothing is
listed after a call that does not return. -/
def callsFrom : List Nat → SlideState → List (Row × Nat × Nat)
  | [], _ => []
  | x :: xs, st =>
    (if rd st.array x ≠ 0 then [(st.array, x, st.stop)] else []) ++
      match slideStep st x with
      | none => []
      | some st1 => callsFrom xs st1

/-- The calls of `findTarget` that `slideArray` makes on a row. -/
def slideCalls (array : Row) (score : Nat) : List (Row × Nat × Nat) :=
  callsFrom (List.range SIZE) { array := array, score := score, success := false, stop := 0 }

/-- A call `findTarget(array, x, stop)` within the bounds the scan relies on:
the row has `SIZE` cells, `x` is an index of it, and `x = 0` with `stop = 0`
or `stop < x`. -/
def SafeCall (call : Row × Nat × Nat) : Prop :=
  WfRow call.1 ∧ call.2.1 < SIZE ∧ call.2.2 ≤ call.2.1 ∧ (call.2.1 = 0 ∨ call.2.2 < call.2.1)

/-- What a single slide of the row `[a, b, c, d]` from score 0 satisfies. -/
def SlideFacts (a b c d : Nat) (r : Row) (delta : Nat) (flag : Bool) : Prop :=
  (flag = true ↔ r ≠ [a, b, c, d]) ∧ (flag = false → delta = 0) ∧ delta < 4294967296 ∧
    (flag = true → rd r 3 = 0) ∧
    (flag = false ↔ (b ≠ 0 → a ≠ 0 ∧ a ≠ b) ∧ (c ≠ 0 → b ≠ 0 ∧ b ≠ c) ∧ (d ≠ 0 → c ≠ 0 ∧ c ≠ d))

/-! ## Shapes and arithmetic -/

theorem range_SIZE : List.range SIZE = [0, 1, 2, 3] := by decide

theorem wfRow_cases {row : Row} (h : WfRow row) : ∃ a b c d, row = [a, b, c, d] := by
  match row, h with
  | [a, b, c, d], _ => exact ⟨a, b, c, d, rfl⟩

theorem wfBoard_cases {board : Board} (h : WfBoard board) :
    ∃ a0 a1 a2 a3 b0 b1 b2 b3 c0 c1 c2 c3 d0 d1 d2 d3,
      board = [[a0, a1, a2, a3], [b0, b1, b2, b3], [c0, c1, c2, c3], [d0, d1, d2, d3]] := by
  obtain ⟨hl, hc⟩ := h
  match board, hl with
  | [A, B, C, D], _ =>
    obtain ⟨a0, a1, a2, a3, rfl⟩ := wfRow_cases (hc A (by simp))
    obtain ⟨b0, b1, b2, b3, rfl⟩ := wfRow_cases (hc B (by simp))
    obtain ⟨c0, c1, c2, c3, rfl⟩ := wfRow_cases (hc C (by simp))
    obtain ⟨d0, d1, d2, d3, rfl⟩ := wfRow_cases (hc D (by simp))
    exact ⟨a0, a1, a2, a3, b0, b1, b2, b3, c0, c1, c2, c3, d0, d1, d2, d3, rfl⟩

theorem wfBoard_lit (a0 a1 a2 a3 b0 b1 b2 b3 c0 c1 c2 c3 d0 d1 d2 d3 : Nat) :
    WfBoard [[a0, a1, a2, a3], [b0, b1, b2, b3], [c0, c1, c2, c3], [d0, d1, d2, d3]] := by
  simp [WfBoard, SIZE]

theorem rotate_lit (a0 a1 a2 a3 b0 b1 b2 b3 c0 c1 c2 c3 d0 d1 d2 d3 : Nat) :
    rotateBoard [[a0, a1, a2, a3], [b0, b1, b2, b3], [c0, c1, c2, c3], [d0, d1, d2, d3]] =
      [[a3, b3, c3, d3], [a2, b2, c2, d2], [a1, b1, c1, d1], [a0, b0, c0, d0]] := by
  simp [rotateBoard, rotateCycle, SIZE, List.range, List.range.loop, List.range', rd2, wr2, rd, wr]

theorem incr_small {v : Nat} (h : v ≤ 29) : (v + 1) % 256 = v + 1 :=
  Nat.mod_eq_of_lt (by omega)

theorem pow_small {v : Nat} (h : v ≤ 29) : 2 ^ (v + 1) ≤ 2 ^ 30 :=
  Nat.pow_le_pow_right (by decide) (by omega)

theorem shl_small {v : Nat} (h : v ≤ 29) : 2 ^ (v + 1) % 4294967296 = 2 ^ (v + 1) := by
  have := pow_small h
  exact Nat.mod_eq_of_lt (by omega)

theorem shl_small2 {u v : Nat} (hu : u ≤ 29) (hv : v ≤ 29) :
    (2 ^ (u + 1) + 2 ^ (v + 1)) % 4294967296 = 2 ^ (u + 1) + 2 ^ (v + 1) := by
  have := pow_small hu
  have := pow_small hv
  exact Nat.mod_eq_of_lt (by omega)

/-! ## One row: case analysis on which cells are empty and which are equal -/

set_option maxHeartbeats 4000000 in
theorem slide_ref4 (a b c d : Nat) (ha : a ≤ 29) (hb : b ≤ 29) (hc : c ≤ 29) (hd : d ≤ 29) :
    (slideArray [a, b, c, d] 0).map (fun r => (r.1, r.2.1)) = some (slideRef [a, b, c, d]) := by
  have ia := incr_small ha
  have ib := incr_small hb
  have ic := incr_small hc
  have id := incr_small hd
  have sa := shl_small ha
  have sb := shl_small hb
  have sc := shl_small hc
  have sd := shl_small hd
  have sac := shl_small2 ha hc
  have sad := shl_small2 ha hd
  have sbc := shl_small2 hb hc
  have sbd := shl_small2 hb hd
  have saa := shl_small2 ha ha
  have sbb := shl_small2 hb hb
  have scc := shl_small2 hc hc
  by_cases a0 : a = 0 <;> by_cases b0 : b = 0 <;> by_cases c0 : c = 0 <;> by_cases d0 : d = 0 <;>
  by_cases ab : a = b <;> by_cases ac : a = c <;> by_cases ad : a = d <;>
  by_cases bc : b = c <;> by_cases bd : b = d <;> by_cases cd : c = d <;>
  (try subst_vars) <;> (try omega) <;>
  simp [slideArray, range_SIZE, loopM, slideStep, findTarget, findTargetFrom, scanCell, rd, wr,
    slideRef, mergeScan, shl1, SIZE, *]

set_option maxHeartbeats 4000000 in
theorem slide_score4 (a b c d s : Nat) :
    slideArray [a, b, c, d] (s % 4294967296) =
      (slideArray [a, b, c, d] 0).map fun r => (r.1, (s + r.2.1) % 4294967296, r.2.2) := by
  by_cases a0 : a = 0 <;> by_cases b0 : b = 0 <;> by_cases c0 : c = 0 <;> by_cases d0 : d = 0 <;>
  by_cases ab : a = b <;> by_cases ac : a = c <;> by_cases ad : a = d <;>
  by_cases bc : b = c <;> by_cases bd : b = d <;> by_cases cd : c = d <;>
  (try subst_vars) <;> (try omega) <;>
  simp [slideArray, range_SIZE, loopM, slideStep, findTarget, findTargetFrom, scanCell, rd, wr,
    SIZE, *] <;>
  omega

set_option maxHeartbeats 4000000 in
theorem slide_shape4 (a b c d : Nat) :
    ∃ a1 b1 c1 d1 delta flag,
      slideArray [a, b, c, d] 0 = some ([a1, b1, c1, d1], delta, flag) := by
  by_cases a0 : a = 0 <;> by_cases b0 : b = 0 <;> by_cases c0 : c = 0 <;> by_cases d0 : d = 0 <;>
  by_cases ab : a = b <;> by_cases ac : a = c <;> by_cases ad : a = d <;>
  by_cases bc : b = c <;> by_cases bd : b = d <;> by_cases cd : c = d <;>
  (try subst_vars) <;> (try omega) <;>
  simp [slideArray, range_SIZE, loopM, slideStep, findTarget, findTargetFrom, scanCell, rd, wr,
    SIZE, *]

set_option maxHeartbeats 4000000 in
theorem slide_facts4 (a b c d : Nat) (r : Row) (delta : Nat) (flag : Bool)
    (h : slideArray [a, b, c, d] 0 = some (r, delta, flag)) : SlideFacts a b c d r delta flag := by
  revert h
  by_cases a0 : a = 0 <;> by_cases b0 : b = 0 <;> by_cases c0 : c = 0 <;> by_cases d0 : d = 0 <;>
  by_cases ab : a = b <;> by_cases ac : a = c <;> by_cases ad : a = d <;>
  by_cases bc : b = c <;> by_cases bd : b = d <;> by_cases cd : c = d <;>
  (try subst_vars) <;> (try omega) <;>
  simp [slideArray, range_SIZE, loopM, slideStep, findTarget, findTargetFrom, scanCell, rd, wr,
    SIZE, *] <;>
  intro h1 h2 h3 <;> subst h1 h2 h3 <;>
  simp [SlideFacts, rd, *] <;> omega

theorem slide_score (row : Row) (hw : WfRow row) (s : Nat) :
    slideArray row (s % 4294967296) =
      (slideArray row 0).map fun r => (r.1, (s + r.2.1) % 4294967296, r.2.2) := by
  obtain ⟨a, b, c, d, rfl⟩ := wfRow_cases hw
  exact slide_score4 a b c d s

/-! ## The four moves on a board given cell by cell -/

theorem moveUp_lit (A B C D rA rB rC rD : Row) (s dA dB dC dD : Nat) (fA fB fC fD : Bool)
    (hs : s < 4294967296) (wA : WfRow A) (wB : WfRow B) (wC : WfRow C) (wD : WfRow D)
    (hA : slideArray A 0 = some (rA, dA, fA)) (hB : slideArray B 0 = some (rB, dB, fB))
    (hC : slideArray C 0 = some (rC, dC, fC)) (hD : slideArray D 0 = some (rD, dD, fD)) :
    moveUp [A, B, C, D] s =
      some ([rA, rB, rC, rD], (s + (dA + dB + dC + dD)) % 4294967296, fA || fB || fC || fD) := by
  have e : s = s % 4294967296 := (Nat.mod_eq_of_lt hs).symm
  rw [e]
  simp only [moveUp, range_SIZE, loopM, moveUpStep, List.getD_cons_zero, List.getD_cons_succ,
    slide_score _ wA, slide_score _ wB, slide_score _ wC, slide_score _ wD, hA, hB, hC, hD,
    Option.map_some', List.set_cons_zero, List.set_cons_succ, Bool.false_or]
  simp [Nat.add_assoc]

/-- The four moves of a board given cell by cell, from the slides of its four
columns, of its four columns reversed, of its four rows and of its four rows
reversed. -/
theorem moves_lit (a0 a1 a2 a3 b0 b1 b2 b3 c0 c1 c2 c3 d0 d1 d2 d3 s : Nat)
    (hs : s < 4294967296) :
    ∃ (u0 u1 u2 u3 v0 v1 v2 v3 w0 w1 w2 w3 x0 x1 x2 x3 : Nat) (du0 du1 du2 du3 : Nat) (fu0 fu1 fu2 fu3 : Bool),
      slideArray [a0, a1, a2, a3] 0 = some ([u0, u1, u2, u3], du0, fu0) ∧
      slideArray [b0, b1, b2, b3] 0 = some ([v0, v1, v2, v3], du1, fu1) ∧
      slideArray [c0, c1, c2, c3] 0 = some ([w0, w1, w2, w3], du2, fu2) ∧
      slideArray [d0, d1, d2, d3] 0 = some ([x0, x1, x2, x3], du3, fu3) ∧
      moveUp [[a0, a1, a2, a3], [b0, b1, b2, b3], [c0, c1, c2, c3], [d0, d1, d2, d3]] s =
        some ([[u0, u1, u2, u3], [v0, v1, v2, v3], [w0, w1, w2, w3], [x0, x1, x2, x3]],
          (s + (du0 + du1 + du2 + du3)) % 4294967296, fu0 || fu1 || fu2 || fu3) := by
  obtain ⟨u0, u1, u2, u3, du0, fu0, h0⟩ := slide_shape4 a0 a1 a2 a3
  obtain ⟨v0, v1, v2, v3, du1, fu1, h1⟩ := slide_shape4 b0 b1 b2 b3
  obtain ⟨w0, w1, w2, w3, du2, fu2, h2⟩ := slide_shape4 c0 c1 c2 c3
  obtain ⟨x0, x1, x2, x3, du3, fu3, h3⟩ := slide_shape4 d0 d1 d2 d3
  exact ⟨u0, u1, u2, u3, v0, v1, v2, v3, w0, w1, w2, w3, x0, x1, x2, x3, du0, du1, du2, du3,
    fu0, fu1, fu2, fu3, h0, h1, h2, h3,
    moveUp_lit _ _ _ _ _ _ _ _ s _ _ _ _ _ _ _ _ hs rfl rfl rfl rfl h0 h1 h2 h3⟩




theorem sum_flip (s x0 x1 x2 x3 : Nat) :
    (s + (x3 + (x2 + (x1 + (x0 + 0))))) % 2 ^ 32 = (s + (x0 + x1 + x2 + x3)) % 4294967296 := by
  have e : x3 + (x2 + (x1 + (x0 + 0))) = x0 + x1 + x2 + x3 := by omega
  rw [e]; rfl

theorem sum_keep (s x0 x1 x2 x3 : Nat) :
    (s + (x0 + (x1 + (x2 + (x3 + 0))))) % 2 ^ 32 = (s + (x0 + x1 + x2 + x3)) % 4294967296 := by
  have e : x0 + (x1 + (x2 + (x3 + 0))) = x0 + x1 + x2 + x3 := by omega
  rw [e]; rfl

theorem or_flip (x0 x1 x2 x3 : Bool) :
    (x3 || (x2 || (x1 || (x0 || false)))) = (x0 || x1 || x2 || x3) := by
  cases x0 <;> cases x1 <;> cases x2 <;> cases x3 <;> rfl

theorem or_keep (x0 x1 x2 x3 : Bool) :
    (x0 || (x1 || (x2 || (x3 || false)))) = (x0 || x1 || x2 || x3) := by
  cases x0 <;> cases x1 <;> cases x2 <;> cases x3 <;> rfl

theorem up_direct_lit
    (a0 a1 a2 a3 b0 b1 b2 b3 c0 c1 c2 c3 d0 d1 d2 d3 s : Nat) (hs : s < 4294967296) :
    applyMove Dir.up [[a0, a1, a2, a3], [b0, b1, b2, b3], [c0, c1, c2, c3], [d0, d1, d2, d3]] s =
      moveDirect Dir.up [[a0, a1, a2, a3], [b0, b1, b2, b3], [c0, c1, c2, c3], [d0, d1, d2, d3]] s := by
  obtain ⟨u0, u1, u2, u3, v0, v1, v2, v3, w0, w1, w2, w3, x0, x1, x2, x3, du0, du1, du2, du3,
    fu0, fu1, fu2, fu3, h0, h1, h2, h3, hm⟩ :=
    moves_lit a0 a1 a2 a3 b0 b1 b2 b3 c0 c1 c2 c3 d0 d1 d2 d3 s hs
  rw [applyMove, hm]
  simp only [rotate_lit, moveDirect, linesOf, unlines, sum_keep, or_keep, slideLines, h0, h1, h2, h3,
    Option.map_some', List.map, List.getD_cons_zero, List.getD_cons_succ, List.reverse_cons,
    List.reverse_nil, List.nil_append, List.cons_append]

theorem left_direct_lit
    (a0 a1 a2 a3 b0 b1 b2 b3 c0 c1 c2 c3 d0 d1 d2 d3 s : Nat) (hs : s < 4294967296) :
    applyMove Dir.left [[a0, a1, a2, a3], [b0, b1, b2, b3], [c0, c1, c2, c3], [d0, d1, d2, d3]] s =
      moveDirect Dir.left [[a0, a1, a2, a3], [b0, b1, b2, b3], [c0, c1, c2, c3], [d0, d1, d2, d3]] s := by
  obtain ⟨u0, u1, u2, u3, v0, v1, v2, v3, w0, w1, w2, w3, x0, x1, x2, x3, du0, du1, du2, du3,
    fu0, fu1, fu2, fu3, h0, h1, h2, h3, hm⟩ :=
    moves_lit a3 b3 c3 d3 a2 b2 c2 d2 a1 b1 c1 d1 a0 b0 c0 d0 s hs
  rw [applyMove]
  unfold moveLeft
  simp only [rotate_lit]
  rw [hm]
  simp only [rotate_lit, moveDirect, linesOf, unlines, rowsOf, rowOf, ofRows, range_SIZE, rd2, rd, sum_flip, or_flip, slideLines, h0, h1, h2, h3,
    Option.map_some', List.map, List.getD_cons_zero, List.getD_cons_succ, List.reverse_cons,
    List.reverse_nil, List.nil_append, List.cons_append]

theorem down_direct_lit
    (a0 a1 a2 a3 b0 b1 b2 b3 c0 c1 c2 c3 d0 d1 d2 d3 s : Nat) (hs : s < 4294967296) :
    applyMove Dir.down [[a0, a1, a2, a3], [b0, b1, b2, b3], [c0, c1, c2, c3], [d0, d1, d2, d3]] s =
      moveDirect Dir.down [[a0, a1, a2, a3], [b0, b1, b2, b3], [c0, c1, c2, c3], [d0, d1, d2, d3]] s := by
  obtain ⟨u0, u1, u2, u3, v0, v1, v2, v3, w0, w1, w2, w3, x0, x1, x2, x3, du0, du1, du2, du3,
    fu0, fu1, fu2, fu3, h0, h1, h2, h3, hm⟩ :=
    moves_lit d3 d2 d1 d0 c3 c2 c1 c0 b3 b2 b1 b0 a3 a2 a1 a0 s hs
  rw [applyMove]
  unfold moveDown
  simp only [rotate_lit]
  rw [hm]
  simp only [rotate_lit, moveDirect, linesOf, unlines, sum_flip, or_flip, slideLines, h0, h1, h2, h3,
    Option.map_some', List.map, List.getD_cons_zero, List.getD_cons_succ, List.reverse_cons,
    List.reverse_nil, List.nil_append, List.cons_append]

theorem right_direct_lit
    (a0 a1 a2 a3 b0 b1 b2 b3 c0 c1 c2 c3 d0 d1 d2 d3 s : Nat) (hs : s < 4294967296) :
    applyMove Dir.right [[a0, a1, a2, a3], [b0, b1, b2, b3], [c0, c1, c2, c3], [d0, d1, d2, d3]] s =
      moveDirect Dir.right [[a0, a1, a2, a3], [b0, b1, b2, b3], [c0, c1, c2, c3], [d0, d1, d2, d3]] s := by
  obtain ⟨u0, u1, u2, u3, v0, v1, v2, v3, w0, w1, w2, w3, x0, x1, x2, x3, du0, du1, du2, du3,
    fu0, fu1, fu2, fu3, h0, h1, h2, h3, hm⟩ :=
    moves_lit d0 c0 b0 a0 d1 c1 b1 a1 d2 c2 b2 a2 d3 c3 b3 a3 s hs
  rw [applyMove]
  unfold moveRight
  simp only [rotate_lit]
  rw [hm]
  simp only [rotate_lit, moveDirect, linesOf, unlines, rowsOf, rowOf, ofRows, range_SIZE, rd2, rd, sum_keep, or_keep, slideLines, h0, h1, h2, h3,
    Option.map_some', List.map, List.getD_cons_zero, List.getD_cons_succ, List.reverse_cons,
    List.reverse_nil, List.nil_append, List.cons_append]

theorem applyMove_direct (dir : Dir) (board : Board) (score : Nat) (hb : WfBoard board)
    (hs : score < 2 ^ 32) : applyMove dir board score = moveDirect dir board score := by
  obtain ⟨a0, a1, a2, a3, b0, b1, b2, b3, c0, c1, c2, c3, d0, d1, d2, d3, rfl⟩ := wfBoard_cases hb
  have hs : score < 4294967296 := by simpa using hs
  cases dir
  · exact up_direct_lit _ _ _ _ _ _ _ _ _ _ _ _ _ _ _ _ _ hs
  · exact left_direct_lit _ _ _ _ _ _ _ _ _ _ _ _ _ _ _ _ _ hs
  · exact down_direct_lit _ _ _ _ _ _ _ _ _ _ _ _ _ _ _ _ _ hs
  · exact right_direct_lit _ _ _ _ _ _ _ _ _ _ _ _ _ _ _ _ _ hs

/-! ## Lines of a direction -/

theorem forall_lt_three (p : Nat → Prop) : (∀ i, i < 3 → p i) ↔ p 0 ∧ p 1 ∧ p 2 := by
  constructor
  · intro h
    exact ⟨h 0 (by omega), h 1 (by omega), h 2 (by omega)⟩
  · rintro ⟨h0, h1, h2⟩ i hi
    have : i = 0 ∨ i = 1 ∨ i = 2 := by omega
    rcases this with rfl | rfl | rfl <;> assumption

theorem forall_lt_four (p : Nat → Prop) : (∀ i, i < 4 → p i) ↔ p 0 ∧ p 1 ∧ p 2 ∧ p 3 := by
  constructor
  · intro h
    exact ⟨h 0 (by omega), h 1 (by omega), h 2 (by omega), h 3 (by omega)⟩
  · rintro ⟨h0, h1, h2, h3⟩ i hi
    have : i = 0 ∨ i = 1 ∨ i = 2 ∨ i = 3 := by omega
    rcases this with rfl | rfl | rfl | rfl <;> assumption

theorem stuck_lit (a b c d : Nat) :
    Stuck [a, b, c, d] ↔
      (b ≠ 0 → a ≠ 0 ∧ a ≠ b) ∧ (c ≠ 0 → b ≠ 0 ∧ b ≠ c) ∧ (d ≠ 0 → c ≠ 0 ∧ c ≠ d) := by
  simp [Stuck, SIZE, forall_lt_three, rd]

theorem linesOf_wf (dir : Dir) {board : Board} (hb : WfBoard board) :
    WfBoard (linesOf dir board) := by
  obtain ⟨a0, a1, a2, a3, b0, b1, b2, b3, c0, c1, c2, c3, d0, d1, d2, d3, rfl⟩ := wfBoard_cases hb
  cases dir <;> simp [linesOf, rowsOf, rowOf, range_SIZE, WfBoard, SIZE]

theorem unlines_wf (dir : Dir) {lines : List Row} (hb : WfBoard lines) :
    WfBoard (unlines dir lines) := by
  obtain ⟨a0, a1, a2, a3, b0, b1, b2, b3, c0, c1, c2, c3, d0, d1, d2, d3, rfl⟩ := wfBoard_cases hb
  cases dir <;> simp [unlines, ofRows, range_SIZE, WfBoard, SIZE]

theorem unlines_linesOf (dir : Dir) {board : Board} (hb : WfBoard board) :
    unlines dir (linesOf dir board) = board := by
  obtain ⟨a0, a1, a2, a3, b0, b1, b2, b3, c0, c1, c2, c3, d0, d1, d2, d3, rfl⟩ := wfBoard_cases hb
  cases dir <;> simp [linesOf, unlines, rowsOf, rowOf, ofRows, range_SIZE, rd2, rd]

theorem linesOf_unlines (dir : Dir) {lines : List Row} (hb : WfBoard lines) :
    linesOf dir (unlines dir lines) = lines := by
  obtain ⟨a0, a1, a2, a3, b0, b1, b2, b3, c0, c1, c2, c3, d0, d1, d2, d3, rfl⟩ := wfBoard_cases hb
  cases dir <;> simp [linesOf, unlines, rowsOf, rowOf, ofRows, range_SIZE, rd2, rd]

theorem unlines_ne_iff (dir : Dir) {board lines : List Row} (hb : WfBoard board)
    (hl : WfBoard lines) : unlines dir lines ≠ board ↔ lines ≠ linesOf dir board := by
  constructor
  · intro h e
    exact h (by rw [e, unlines_linesOf dir hb])
  · intro h e
    exact h (by rw [← e, linesOf_unlines dir hl])

/-! ## Every line slid on its own -/

theorem slide_row_spec (row : Row) (hw : WfRow row) :
    ∃ r delta flag, slideArray row 0 = some (r, delta, flag) ∧ WfRow r ∧
      (flag = true ↔ r ≠ row) ∧ (flag = false → delta = 0) ∧ delta < 4294967296 ∧
      (flag = false ↔ Stuck row) := by
  obtain ⟨a, b, c, d, rfl⟩ := wfRow_cases hw
  obtain ⟨a1, b1, c1, d1, delta, flag, h⟩ := slide_shape4 a b c d
  obtain ⟨f1, f2, f3, _, f5⟩ := slide_facts4 a b c d _ _ _ h
  exact ⟨_, _, _, h, rfl, f1, f2, f3, by rw [stuck_lit]; exact f5⟩

theorem slideLines_spec (lines : List Row) (hl : ∀ l ∈ lines, WfRow l) :
    ∃ rs delta flag, slideLines lines = some (rs, delta, flag) ∧ rs.length = lines.length ∧
      (∀ r ∈ rs, WfRow r) ∧ (flag = true ↔ rs ≠ lines) ∧ (flag = false → delta = 0) ∧
      (flag = false ↔ ∀ l ∈ lines, Stuck l) := by
  induction lines with
  | nil => exact ⟨[], 0, false, rfl, rfl, by simp, by simp, by simp, by simp⟩
  | cons line rest ih =>
    obtain ⟨rs, deltas, flags, h, hlen, hwf, hne, hz, hst⟩ :=
      ih (fun l hmem => hl l (List.mem_cons_of_mem _ hmem))
    obtain ⟨r, delta, flag, h1, hw1, hne1, hz1, _, hst1⟩ :=
      slide_row_spec line (hl line (List.mem_cons_self _ _))
    refine ⟨r :: rs, delta + deltas, flag || flags, ?_, ?_, ?_, ?_, ?_, ?_⟩
    · simp [slideLines, h, h1]
    · simp [hlen]
    · intro x hx
      rcases List.mem_cons.mp hx with rfl | hx
      · exact hw1
      · exact hwf x hx
    · cases flag <;> cases flags <;> simp_all
    · cases flag <;> cases flags <;> simp_all
    · cases flag <;> cases flags <;> simp_all

/-- What each of the four moves does, on a board of the right shape. -/
theorem applyMove_spec (dir : Dir) (board : Board) (score : Nat) (hb : WfBoard board)
    (hs : score < 2 ^ 32) :
    ∃ rs delta flag, slideLines (linesOf dir board) = some (rs, delta, flag) ∧
      applyMove dir board score = some (unlines dir rs, (score + delta) % 2 ^ 32, flag) ∧
      WfBoard (unlines dir rs) ∧ (flag = true ↔ unlines dir rs ≠ board) ∧
      (flag = false → delta = 0) ∧ (flag = false ↔ ∀ l ∈ linesOf dir board, Stuck l) := by
  have hw := linesOf_wf dir hb
  obtain ⟨rs, delta, flag, h, hlen, hwf, hne, hz, hst⟩ := slideLines_spec _ hw.2
  have hrs : WfBoard rs := ⟨by rw [hlen]; exact hw.1, hwf⟩
  refine ⟨rs, delta, flag, h, ?_, unlines_wf dir hrs, ?_, hz, hst⟩
  · rw [applyMove_direct dir board score hb hs]
    simp [moveDirect, h]
  · rw [unlines_ne_iff dir hb hrs]
    exact hne

theorem reportsChange_applyMove (dir : Dir) (board : Board) (score : Nat) (hb : WfBoard board)
    (hs : score < 2 ^ 32) : ReportsChange (applyMove dir board score) board score := by
  obtain ⟨rs, delta, flag, _, hm, _, hne, hz, _⟩ := applyMove_spec dir board score hb hs
  refine ⟨_, _, _, hm, hne, ?_⟩
  intro hf
  rw [hz hf, Nat.add_zero]
  exact Nat.mod_eq_of_lt hs

/-! ## Empty cells, rotation and the end of the game -/

theorem foldl_count (p : Nat → Prop) [DecidablePred p] (ys : List Nat) (c0 : Nat) :
    ys.foldl (fun c y => if p y then c + 1 else c) c0 = c0 + (ys.filter fun y => decide (p y)).length := by
  induction ys generalizing c0 with
  | nil => simp
  | cons y ys ih =>
    simp only [List.foldl_cons, ih, List.filter_cons]
    by_cases h : p y
    · simp [h]; omega
    · simp [h]

theorem foldl_collect {α : Type} (p : Nat → Prop) [DecidablePred p] (g : Nat → α) (ys : List Nat)
    (l0 : List α) :
    ys.foldl (fun l y => if p y then l ++ [g y] else l) l0 =
      l0 ++ (ys.filter fun y => decide (p y)).map g := by
  induction ys generalizing l0 with
  | nil => simp
  | cons y ys ih =>
    simp only [List.foldl_cons, ih, List.filter_cons]
    by_cases h : p y
    · simp [h]
    · simp [h]

theorem emptyCells_eq (board : Board) :
    emptyCells board =
      ([0, 1, 2, 3].filter fun y => decide (rd2 board 0 y = 0)).map (fun y => (0, y)) ++
      ([0, 1, 2, 3].filter fun y => decide (rd2 board 1 y = 0)).map (fun y => (1, y)) ++
      ([0, 1, 2, 3].filter fun y => decide (rd2 board 2 y = 0)).map (fun y => (2, y)) ++
      ([0, 1, 2, 3].filter fun y => decide (rd2 board 3 y = 0)).map (fun y => (3, y)) := by
  simp only [emptyCells, foldl_collect]
  simp only [range_SIZE, List.foldl_cons, List.foldl_nil, List.nil_append]

theorem countEmpty_eq (board : Board) :
    countEmpty board =
      ([0, 1, 2, 3].filter fun y => decide (rd2 board 0 y = 0)).length +
      ([0, 1, 2, 3].filter fun y => decide (rd2 board 1 y = 0)).length +
      ([0, 1, 2, 3].filter fun y => decide (rd2 board 2 y = 0)).length +
      ([0, 1, 2, 3].filter fun y => decide (rd2 board 3 y = 0)).length := by
  simp only [countEmpty, foldl_count]
  simp only [range_SIZE, List.foldl_cons, List.foldl_nil, Nat.zero_add]

theorem length_emptyCells (board : Board) : (emptyCells board).length = countEmpty board := by
  simp only [emptyCells_eq, countEmpty_eq, List.length_append, List.length_map]

theorem mem_emptyCells (board : Board) (x y : Nat) :
    (x, y) ∈ emptyCells board ↔ x < 4 ∧ y < 4 ∧ rd2 board x y = 0 := by
  simp only [emptyCells_eq, List.mem_append, List.mem_map, List.mem_filter, Prod.mk.injEq,
    decide_eq_true_eq, List.mem_cons, List.mem_singleton, List.not_mem_nil, or_false]
  constructor
  · rintro (((⟨z, ⟨hz, h0⟩, rfl, rfl⟩ | ⟨z, ⟨hz, h0⟩, rfl, rfl⟩) | ⟨z, ⟨hz, h0⟩, rfl, rfl⟩) |
      ⟨z, ⟨hz, h0⟩, rfl, rfl⟩) <;> exact ⟨by omega, by omega, h0⟩
  · rintro ⟨hx, hy, h0⟩
    have hx4 : x = 0 ∨ x = 1 ∨ x = 2 ∨ x = 3 := by omega
    have hy4 : y = 0 ∨ y = 1 ∨ y = 2 ∨ y = 3 := by omega
    rcases hx4 with rfl | rfl | rfl | rfl
    · exact Or.inl (Or.inl (Or.inl ⟨y, ⟨hy4, h0⟩, rfl, rfl⟩))
    · exact Or.inl (Or.inl (Or.inr ⟨y, ⟨hy4, h0⟩, rfl, rfl⟩))
    · exact Or.inl (Or.inr ⟨y, ⟨hy4, h0⟩, rfl, rfl⟩)
    · exact Or.inr ⟨y, ⟨hy4, h0⟩, rfl, rfl⟩

theorem mem_emptyCells_pair (board : Board) (p : Nat × Nat) :
    p ∈ emptyCells board ↔ p.1 < 4 ∧ p.2 < 4 ∧ rd2 board p.1 p.2 = 0 :=
  mem_emptyCells board p.1 p.2

theorem countEmpty_eq_zero (board : Board) :
    countEmpty board = 0 ↔ ∀ x y, x < 4 → y < 4 → rd2 board x y ≠ 0 := by
  rw [← length_emptyCells, List.length_eq_zero]
  constructor
  · intro h x y hx hy h0
    have : (x, y) ∈ emptyCells board := (mem_emptyCells board x y).2 ⟨hx, hy, h0⟩
    rw [h] at this
    exact List.not_mem_nil _ this
  · intro h
    apply List.eq_nil_iff_forall_not_mem.2
    rintro ⟨x, y⟩ hm
    obtain ⟨hx, hy, h0⟩ := (mem_emptyCells board x y).1 hm
    exact h x y hx hy h0

theorem rotate_wf {board : Board} (hb : WfBoard board) : WfBoard (rotateBoard board) := by
  obtain ⟨a0, a1, a2, a3, b0, b1, b2, b3, c0, c1, c2, c3, d0, d1, d2, d3, rfl⟩ := wfBoard_cases hb
  rw [rotate_lit]
  exact wfBoard_lit _ _ _ _ _ _ _ _ _ _ _ _ _ _ _ _

theorem rotate_rd2 {board : Board} (hb : WfBoard board) (i j : Nat) (hi : i < 4) (hj : j < 4) :
    rd2 (rotateBoard board) i j = rd2 board j (3 - i) := by
  obtain ⟨a0, a1, a2, a3, b0, b1, b2, b3, c0, c1, c2, c3, d0, d1, d2, d3, rfl⟩ := wfBoard_cases hb
  rw [rotate_lit]
  have hi4 : i = 0 ∨ i = 1 ∨ i = 2 ∨ i = 3 := by omega
  have hj4 : j = 0 ∨ j = 1 ∨ j = 2 ∨ j = 3 := by omega
  rcases hi4 with rfl | rfl | rfl | rfl <;> rcases hj4 with rfl | rfl | rfl | rfl <;> rfl

theorem rotate_four {board : Board} (hb : WfBoard board) :
    rotateBoard (rotateBoard (rotateBoard (rotateBoard board))) = board := by
  obtain ⟨a0, a1, a2, a3, b0, b1, b2, b3, c0, c1, c2, c3, d0, d1, d2, d3, rfl⟩ := wfBoard_cases hb
  simp only [rotate_lit]

theorem findPairDown_iff (board : Board) :
    findPairDown board = true ↔ ∃ x y, x < 4 ∧ y < 3 ∧ rd2 board x y = rd2 board x (y + 1) := by
  simp [findPairDown, SIZE, List.any_eq_true, List.mem_range]

theorem findPairDown_rotate {board : Board} (hb : WfBoard board) :
    findPairDown (rotateBoard board) = true ↔
      ∃ x y, x < 3 ∧ y < 4 ∧ rd2 board x y = rd2 board (x + 1) y := by
  rw [findPairDown_iff]
  constructor
  · rintro ⟨i, j, hi, hj, h⟩
    rw [rotate_rd2 hb i j hi (by omega), rotate_rd2 hb i (j + 1) hi (by omega)] at h
    exact ⟨j, 3 - i, hj, by omega, h⟩
  · rintro ⟨x, y, hx, hy, h⟩
    refine ⟨3 - y, x, by omega, hx, ?_⟩
    rw [rotate_rd2 hb (3 - y) x (by omega) (by omega),
      rotate_rd2 hb (3 - y) (x + 1) (by omega) (by omega)]
    have e : 3 - (3 - y) = y := by omega
    rw [e]
    exact h

theorem gameEnded_board {board : Board} (hb : WfBoard board) : (gameEnded board).1 = board := by
  unfold gameEnded
  split
  · rfl
  · split
    · rfl
    · dsimp only
      exact rotate_four hb

theorem gameEnded_flag (board : Board) :
    (gameEnded board).2 = true ↔
      countEmpty board = 0 ∧ findPairDown board = false ∧
        findPairDown (rotateBoard board) = false := by
  unfold gameEnded
  by_cases h1 : countEmpty board > 0
  · simp [h1]; omega
  · by_cases h2 : findPairDown board = true
    · simp [h1, h2]
    · by_cases h3 : findPairDown (rotateBoard board) = true
      · simp [h1, h2, h3]
      · simp [h1, h2, h3]
        omega

theorem gameEnded_cells (board : Board) (hb : WfBoard board) :
    (gameEnded board).2 = true ↔
      (∀ x, x < 4 → ∀ y, y < 4 → rd2 board x y ≠ 0) ∧
      (∀ x, x < 3 → ∀ y, y < 4 → rd2 board x y ≠ rd2 board (x + 1) y) ∧
      (∀ x, x < 4 → ∀ y, y < 3 → rd2 board x y ≠ rd2 board x (y + 1)) := by
  rw [gameEnded_flag, countEmpty_eq_zero]
  have e1 : findPairDown board = false ↔
      ∀ x, x < 4 → ∀ y, y < 3 → rd2 board x y ≠ rd2 board x (y + 1) := by
    rw [← Bool.not_eq_true, findPairDown_iff]
    constructor
    · intro h x hx y hy he
      exact h ⟨x, y, hx, hy, he⟩
    · rintro h ⟨x, y, hx, hy, he⟩
      exact h x hx y hy he
  have e2 : findPairDown (rotateBoard board) = false ↔
      ∀ x, x < 3 → ∀ y, y < 4 → rd2 board x y ≠ rd2 board (x + 1) y := by
    rw [← Bool.not_eq_true, findPairDown_rotate hb]
    constructor
    · intro h x hx y hy he
      exact h ⟨x, y, hx, hy, he⟩
    · rintro h ⟨x, y, hx, hy, he⟩
      exact h x hx y hy he
  rw [e1, e2]
  constructor
  · rintro ⟨h1, h2, h3⟩
    exact ⟨fun x hx y hy => h1 x y hx hy, h3, h2⟩
  · rintro ⟨h1, h2, h3⟩
    exact ⟨fun x y hx hy => h1 x hx y hy, h3, h2⟩

theorem stuck_pair (a b c d : Nat) (h1 : Stuck [a, b, c, d]) (h2 : Stuck [d, c, b, a])
    (hn : a ≠ 0 ∨ b ≠ 0 ∨ c ≠ 0 ∨ d ≠ 0) :
    (a ≠ 0 ∧ b ≠ 0 ∧ c ≠ 0 ∧ d ≠ 0) ∧ a ≠ b ∧ b ≠ c ∧ c ≠ d := by
  rw [stuck_lit] at h1 h2
  omega

theorem stuck_of_full (a b c d : Nat) (hf : a ≠ 0 ∧ b ≠ 0 ∧ c ≠ 0 ∧ d ≠ 0)
    (hd : a ≠ b ∧ b ≠ c ∧ c ≠ d) : Stuck [a, b, c, d] ∧ Stuck [d, c, b, a] := by
  rw [stuck_lit, stuck_lit]
  omega

/-- The lines of the four directions of a board given cell by cell. -/
theorem lines_stuck_lit (a0 a1 a2 a3 b0 b1 b2 b3 c0 c1 c2 c3 d0 d1 d2 d3 : Nat) :
    (∀ dir, ∀ l ∈ linesOf dir
        [[a0, a1, a2, a3], [b0, b1, b2, b3], [c0, c1, c2, c3], [d0, d1, d2, d3]], Stuck l) ↔
      ((Stuck [a0, a1, a2, a3] ∧ Stuck [a3, a2, a1, a0]) ∧
        (Stuck [b0, b1, b2, b3] ∧ Stuck [b3, b2, b1, b0]) ∧
        (Stuck [c0, c1, c2, c3] ∧ Stuck [c3, c2, c1, c0]) ∧
        (Stuck [d0, d1, d2, d3] ∧ Stuck [d3, d2, d1, d0])) ∧
      ((Stuck [a0, b0, c0, d0] ∧ Stuck [d0, c0, b0, a0]) ∧
        (Stuck [a1, b1, c1, d1] ∧ Stuck [d1, c1, b1, a1]) ∧
        (Stuck [a2, b2, c2, d2] ∧ Stuck [d2, c2, b2, a2]) ∧
        (Stuck [a3, b3, c3, d3] ∧ Stuck [d3, c3, b3, a3])) := by
  constructor
  · intro h
    have hu := h Dir.up
    have hd := h Dir.down
    have hl := h Dir.left
    have hr := h Dir.right
    simp only [linesOf, rowsOf, rowOf, range_SIZE, rd2, rd, List.map, List.getD_cons_zero,
      List.getD_cons_succ, List.reverse_cons, List.reverse_nil, List.nil_append, List.cons_append,
      List.mem_cons, List.mem_singleton, List.not_mem_nil, or_false, forall_eq_or_imp,
      forall_eq] at hu hd hl hr
    exact ⟨⟨⟨hu.1, hd.1⟩, ⟨hu.2.1, hd.2.1⟩, ⟨hu.2.2.1, hd.2.2.1⟩, ⟨hu.2.2.2, hd.2.2.2⟩⟩,
      ⟨⟨hl.1, hr.1⟩, ⟨hl.2.1, hr.2.1⟩, ⟨hl.2.2.1, hr.2.2.1⟩, ⟨hl.2.2.2, hr.2.2.2⟩⟩⟩
  · rintro ⟨⟨⟨u0, d0⟩, ⟨u1, d1⟩, ⟨u2, d2⟩, ⟨u3, d3⟩⟩, ⟨⟨l0, r0⟩, ⟨l1, r1⟩, ⟨l2, r2⟩, ⟨l3, r3⟩⟩⟩ dir
    cases dir <;>
    simp only [linesOf, rowsOf, rowOf, range_SIZE, rd2, rd, List.map, List.getD_cons_zero,
      List.getD_cons_succ, List.reverse_cons, List.reverse_nil, List.nil_append, List.cons_append,
      List.mem_cons, List.mem_singleton, List.not_mem_nil, or_false, forall_eq_or_imp,
      forall_eq]
    · exact ⟨u0, u1, u2, u3⟩
    · exact ⟨l0, l1, l2, l3⟩
    · exact ⟨d0, d1, d2, d3⟩
    · exact ⟨r0, r1, r2, r3⟩

theorem ended_iff_stuck_lit (a0 a1 a2 a3 b0 b1 b2 b3 c0 c1 c2 c3 d0 d1 d2 d3 : Nat)
    (hn : (a0 ≠ 0 ∨ a1 ≠ 0 ∨ a2 ≠ 0 ∨ a3 ≠ 0) ∨ (b0 ≠ 0 ∨ b1 ≠ 0 ∨ b2 ≠ 0 ∨ b3 ≠ 0) ∨
      (c0 ≠ 0 ∨ c1 ≠ 0 ∨ c2 ≠ 0 ∨ c3 ≠ 0) ∨ (d0 ≠ 0 ∨ d1 ≠ 0 ∨ d2 ≠ 0 ∨ d3 ≠ 0)) :
    (gameEnded [[a0, a1, a2, a3], [b0, b1, b2, b3], [c0, c1, c2, c3], [d0, d1, d2, d3]]).2 = true ↔
      ∀ dir, ∀ l ∈ linesOf dir
        [[a0, a1, a2, a3], [b0, b1, b2, b3], [c0, c1, c2, c3], [d0, d1, d2, d3]], Stuck l := by
  rw [lines_stuck_lit, gameEnded_cells _ (wfBoard_lit _ _ _ _ _ _ _ _ _ _ _ _ _ _ _ _)]
  simp only [forall_lt_four, forall_lt_three, rd2, rd, List.getD_cons_zero, List.getD_cons_succ]
  constructor
  · rintro ⟨⟨fa, fb, fc, fd⟩, ⟨⟨ab0, ab1, ab2, ab3⟩, ⟨bc0, bc1, bc2, bc3⟩, ⟨cd0, cd1, cd2, cd3⟩⟩,
      ⟨va, vb, vc, vd⟩⟩
    exact ⟨⟨stuck_of_full _ _ _ _ fa va, stuck_of_full _ _ _ _ fb vb, stuck_of_full _ _ _ _ fc vc,
      stuck_of_full _ _ _ _ fd vd⟩,
      ⟨stuck_of_full _ _ _ _ ⟨fa.1, fb.1, fc.1, fd.1⟩ ⟨ab0, bc0, cd0⟩,
        stuck_of_full _ _ _ _ ⟨fa.2.1, fb.2.1, fc.2.1, fd.2.1⟩ ⟨ab1, bc1, cd1⟩,
        stuck_of_full _ _ _ _ ⟨fa.2.2.1, fb.2.2.1, fc.2.2.1, fd.2.2.1⟩ ⟨ab2, bc2, cd2⟩,
        stuck_of_full _ _ _ _ ⟨fa.2.2.2, fb.2.2.2, fc.2.2.2, fd.2.2.2⟩ ⟨ab3, bc3, cd3⟩⟩⟩
  · rintro ⟨⟨⟨ua, da⟩, ⟨ub, db⟩, ⟨uc, dc⟩, ⟨ud, dd⟩⟩, ⟨⟨l0, r0⟩, ⟨l1, r1⟩, ⟨l2, r2⟩, ⟨l3, r3⟩⟩⟩
    have cA := stuck_pair _ _ _ _ ua da
    have cB := stuck_pair _ _ _ _ ub db
    have cC := stuck_pair _ _ _ _ uc dc
    have cD := stuck_pair _ _ _ _ ud dd
    have R0 := stuck_pair _ _ _ _ l0 r0
    have R1 := stuck_pair _ _ _ _ l1 r1
    have R2 := stuck_pair _ _ _ _ l2 r2
    have R3 := stuck_pair _ _ _ _ l3 r3
    have rows : (a0 ≠ 0 ∨ b0 ≠ 0 ∨ c0 ≠ 0 ∨ d0 ≠ 0) ∧ (a1 ≠ 0 ∨ b1 ≠ 0 ∨ c1 ≠ 0 ∨ d1 ≠ 0) ∧
        (a2 ≠ 0 ∨ b2 ≠ 0 ∨ c2 ≠ 0 ∨ d2 ≠ 0) ∧ (a3 ≠ 0 ∨ b3 ≠ 0 ∨ c3 ≠ 0 ∨ d3 ≠ 0) := by
      rcases hn with h | h | h | h
      · obtain ⟨⟨x0, x1, x2, x3⟩, _⟩ := cA h
        exact ⟨Or.inl x0, Or.inl x1, Or.inl x2, Or.inl x3⟩
      · obtain ⟨⟨x0, x1, x2, x3⟩, _⟩ := cB h
        exact ⟨Or.inr (Or.inl x0), Or.inr (Or.inl x1), Or.inr (Or.inl x2), Or.inr (Or.inl x3)⟩
      · obtain ⟨⟨x0, x1, x2, x3⟩, _⟩ := cC h
        exact ⟨Or.inr (Or.inr (Or.inl x0)), Or.inr (Or.inr (Or.inl x1)),
          Or.inr (Or.inr (Or.inl x2)), Or.inr (Or.inr (Or.inl x3))⟩
      · obtain ⟨⟨x0, x1, x2, x3⟩, _⟩ := cD h
        exact ⟨Or.inr (Or.inr (Or.inr x0)), Or.inr (Or.inr (Or.inr x1)),
          Or.inr (Or.inr (Or.inr x2)), Or.inr (Or.inr (Or.inr x3))⟩
    obtain ⟨⟨p0, q0, s0, t0⟩, e0⟩ := R0 rows.1
    obtain ⟨⟨p1, q1, s1, t1⟩, e1⟩ := R1 rows.2.1
    obtain ⟨⟨p2, q2, s2, t2⟩, e2⟩ := R2 rows.2.2.1
    obtain ⟨⟨p3, q3, s3, t3⟩, e3⟩ := R3 rows.2.2.2
    exact ⟨⟨⟨p0, p1, p2, p3⟩, ⟨q0, q1, q2, q3⟩, ⟨s0, s1, s2, s3⟩, ⟨t0, t1, t2, t3⟩⟩,
      ⟨⟨e0.1, e1.1, e2.1, e3.1⟩, ⟨e0.2.1, e1.2.1, e2.2.1, e3.2.1⟩,
        ⟨e0.2.2, e1.2.2, e2.2.2, e3.2.2⟩⟩,
      ⟨(cA (Or.inl p0)).2, (cB (Or.inl q0)).2, (cC (Or.inl s0)).2, (cD (Or.inl t0)).2⟩⟩

theorem noChange_iff (dir : Dir) (board : Board) (score : Nat) (hb : WfBoard board)
    (hs : score < 2 ^ 32) :
    (applyMove dir board score).map (fun r => r.1) = some board ↔
      ∀ l ∈ linesOf dir board, Stuck l := by
  obtain ⟨rs, delta, flag, _, hm, _, hne, _, hst⟩ := applyMove_spec dir board score hb hs
  rw [hm, ← hst]
  simp only [Option.map_some', Option.some.injEq]
  cases flag
  · simp only [Bool.false_eq_true, false_iff, ne_eq, not_not] at hne
    simp [hne]
  · simp only [true_iff] at hne
    simp [hne]

theorem ended_iff_stuck (board : Board) (hb : WfBoard board)
    (ht : ∃ x y, x < 4 ∧ y < 4 ∧ rd2 board x y ≠ 0) :
    (gameEnded board).2 = true ↔ ∀ dir, ∀ l ∈ linesOf dir board, Stuck l := by
  obtain ⟨a0, a1, a2, a3, b0, b1, b2, b3, c0, c1, c2, c3, d0, d1, d2, d3, rfl⟩ := wfBoard_cases hb
  apply ended_iff_stuck_lit
  obtain ⟨x, y, hx, hy, h⟩ := ht
  have hx4 : x = 0 ∨ x = 1 ∨ x = 2 ∨ x = 3 := by omega
  have hy4 : y = 0 ∨ y = 1 ∨ y = 2 ∨ y = 3 := by omega
  rcases hx4 with rfl | rfl | rfl | rfl <;> rcases hy4 with rfl | rfl | rfl | rfl <;>
    simp only [rd2, rd, List.getD_cons_zero, List.getD_cons_succ] at h <;> simp [h]

/-! ## The spawner -/

theorem filter_len4 (p : Nat → Prop) [DecidablePred p] :
    ([0, 1, 2, 3].filter fun y => decide (p y)).length =
      (if p 0 then 1 else 0) + (if p 1 then 1 else 0) + (if p 2 then 1 else 0) +
        (if p 3 then 1 else 0) := by
  by_cases h0 : p 0 <;> by_cases h1 : p 1 <;> by_cases h2 : p 2 <;> by_cases h3 : p 3 <;>
    simp [List.filter_cons, h0, h1, h2, h3]

theorem countEmpty_lit (a0 a1 a2 a3 b0 b1 b2 b3 c0 c1 c2 c3 d0 d1 d2 d3 : Nat) :
    countEmpty [[a0, a1, a2, a3], [b0, b1, b2, b3], [c0, c1, c2, c3], [d0, d1, d2, d3]] =
      (if a0 = 0 then 1 else 0) + (if a1 = 0 then 1 else 0) + (if a2 = 0 then 1 else 0) +
        (if a3 = 0 then 1 else 0) +
      ((if b0 = 0 then 1 else 0) + (if b1 = 0 then 1 else 0) + (if b2 = 0 then 1 else 0) +
        (if b3 = 0 then 1 else 0)) +
      ((if c0 = 0 then 1 else 0) + (if c1 = 0 then 1 else 0) + (if c2 = 0 then 1 else 0) +
        (if c3 = 0 then 1 else 0)) +
      ((if d0 = 0 then 1 else 0) + (if d1 = 0 then 1 else 0) + (if d2 = 0 then 1 else 0) +
        (if d3 = 0 then 1 else 0)) := by
  rw [countEmpty_eq]
  simp only [filter_len4, rd2, rd, List.getD_cons_zero, List.getD_cons_succ]

/-- Writing a tile into an empty slot: only that cell changes and one slot
fewer is empty. -/
theorem wr2_spec (board : Board) (hb : WfBoard board) (x y v : Nat) (hx : x < 4) (hy : y < 4)
    (h0 : rd2 board x y = 0) (hv : v ≠ 0) :
    WfBoard (wr2 board x y v) ∧ rd2 (wr2 board x y v) x y = v ∧
      (∀ x1 y1, x1 < 4 → y1 < 4 → (x1, y1) ≠ (x, y) →
        rd2 (wr2 board x y v) x1 y1 = rd2 board x1 y1) ∧
      countEmpty (wr2 board x y v) + 1 = countEmpty board := by
  obtain ⟨a0, a1, a2, a3, b0, b1, b2, b3, c0, c1, c2, c3, d0, d1, d2, d3, rfl⟩ := wfBoard_cases hb
  have hx4 : x = 0 ∨ x = 1 ∨ x = 2 ∨ x = 3 := by omega
  have hy4 : y = 0 ∨ y = 1 ∨ y = 2 ∨ y = 3 := by omega
  rcases hx4 with rfl | rfl | rfl | rfl <;> rcases hy4 with rfl | rfl | rfl | rfl <;>
    simp only [rd2, rd, List.getD_cons_zero, List.getD_cons_succ] at h0 <;> subst h0 <;>
    simp only [wr2, wr, List.getD_cons_zero, List.getD_cons_succ, List.set_cons_zero,
      List.set_cons_succ] <;>
    refine ⟨wfBoard_lit _ _ _ _ _ _ _ _ _ _ _ _ _ _ _ _, rfl, ?_, ?_⟩
  all_goals first
    | (intro x1 y1 h1 h2 hne
       have hx4 : x1 = 0 ∨ x1 = 1 ∨ x1 = 2 ∨ x1 = 3 := by omega
       have hy4 : y1 = 0 ∨ y1 = 1 ∨ y1 = 2 ∨ y1 = 3 := by omega
       rcases hx4 with rfl | rfl | rfl | rfl <;> rcases hy4 with rfl | rfl | rfl | rfl <;>
         first
           | rfl
           | exact absurd rfl hne)
    | (rw [countEmpty_lit, countEmpty_lit]
       simp only [if_neg hv, if_true]
       omega)

theorem emptyCells_nodup (board : Board) : (emptyCells board).Nodup := by
  have e : emptyCells board =
      (([0, 1, 2, 3].map fun y => (0, y)) ++ ([0, 1, 2, 3].map fun y => (1, y)) ++
        ([0, 1, 2, 3].map fun y => (2, y)) ++ ([0, 1, 2, 3].map fun y => (3, y))).filter
        fun p => decide (rd2 board p.1 p.2 = 0) := by
    rw [emptyCells_eq]
    simp only [List.filter_append, List.filter_map]
    rfl
  rw [e]
  exact List.Nodup.filter _ (by decide)

theorem getD_mem {α : Type} (l : List α) (i : Nat) (d : α) (h : i < l.length) :
    l.getD i d ∈ l := by
  rw [List.getD_eq_getElem l d h]
  exact List.getElem_mem h

/-- What `addRandom` does when there is an empty slot. -/
theorem addRandom_eq (board : Board) (draw1 draw2 : Nat) (hpos : 0 < countEmpty board) :
    addRandom board draw1 draw2 =
      wr2 board ((emptyCells board).getD (draw1 % countEmpty board) (0, 0)).1
        ((emptyCells board).getD (draw1 % countEmpty board) (0, 0)).2
        (if draw2 % 10 = 9 then 2 else 1) := by
  have hlen := length_emptyCells board
  have hr : draw2 % 10 / 9 + 1 = if draw2 % 10 = 9 then 2 else 1 := by
    split <;> omega
  unfold addRandom
  simp only [hlen, hpos, if_true, hr, gt_iff_lt]

theorem addRandom_full (board : Board) (draw1 draw2 : Nat) (h0 : countEmpty board = 0) :
    addRandom board draw1 draw2 = board := by
  have hlen := length_emptyCells board
  unfold addRandom
  simp [hlen, h0]

/-! ## Sequences of moves -/

theorem applyMove_delta (dir : Dir) (board : Board) (score : Nat) (hb : WfBoard board)
    (hs : score < 2 ^ 32) :
    ∃ b1 flag, applyMove dir board score =
        some (b1, (score + moveDelta dir board) % 4294967296, flag) ∧ WfBoard b1 := by
  obtain ⟨rs, delta, flag, h, hm, hw, _⟩ := applyMove_spec dir board score hb hs
  obtain ⟨rs0, delta0, flag0, h0, hm0, _⟩ := applyMove_spec dir board 0 hb (by decide)
  rw [h] at h0
  simp only [Option.some.injEq, Prod.mk.injEq] at h0
  obtain ⟨rfl, rfl, rfl⟩ := h0
  refine ⟨_, flag, ?_, hw⟩
  rw [hm]
  have e : moveDelta dir board = (0 + delta) % 2 ^ 32 := by
    unfold moveDelta
    rw [hm0]
  rw [e]
  simp only [Nat.reducePow, Nat.zero_add, Nat.add_mod_mod]

theorem runMoves_spec (dirs : List Dir) (board : Board) (score : Nat) (hb : WfBoard board)
    (hs : score < 4294967296) :
    ∃ trace, runMoves dirs board score = some trace ∧ trace.length = dirs.length ∧
      (trace.map Prod.snd).getLastD score =
        (score + (trace.map Prod.fst).sum) % 4294967296 ∧
      (score + (trace.map Prod.fst).sum < 4294967296 →
        List.Chain (fun s1 s2 => s1 ≤ s2) score (trace.map Prod.snd)) := by
  induction dirs generalizing board score with
  | nil =>
    refine ⟨[], rfl, rfl, ?_, fun _ => List.Chain.nil⟩
    simp only [List.map_nil, List.getLastD_nil, List.sum_nil, Nat.add_zero]
    exact (Nat.mod_eq_of_lt hs).symm
  | cons dir dirs ih =>
    obtain ⟨b1, flag, hm, hw⟩ := applyMove_delta dir board score hb (by simpa using hs)
    have hs1 : (score + moveDelta dir board) % 4294967296 < 4294967296 :=
      Nat.mod_lt _ (by decide)
    obtain ⟨trace, hr, hlen, hlast, hchain⟩ := ih b1 _ hw hs1
    refine ⟨(moveDelta dir board, (score + moveDelta dir board) % 4294967296) :: trace,
      ?_, ?_, ?_, ?_⟩
    · simp only [runMoves, hm, hr]
    · simp [hlen]
    · simp only [List.map_cons, List.getLastD_cons, List.sum_cons, hlast]
      omega
    · intro hsum
      simp only [List.map_cons, List.sum_cons] at hsum
      have e : (score + moveDelta dir board) % 4294967296 = score + moveDelta dir board :=
        Nat.mod_eq_of_lt (by omega)
      simp only [List.map_cons]
      refine List.Chain.cons (by omega) (hchain ?_)
      omega

/-! ## Single rows with a rank as parameter -/

theorem slide_three_equal (r : Nat) (h1 : 1 ≤ r) (h2 : r ≤ 29) :
    slideArray [r, r, r, 0] 0 = some ([r + 1, r, 0, 0], 2 ^ (r + 1), true) := by
  have h0 : r ≠ 0 := by omega
  have i1 := incr_small h2
  have s1 := shl_small h2
  simp [slideArray, range_SIZE, loopM, slideStep, findTarget, findTargetFrom, scanCell, rd, wr,
    shl1, SIZE, h0, i1, s1]

theorem slide_pair (r s : Nat) (h1 : 1 ≤ r) (h2 : r ≤ 29) (hs : s + 2 ^ (r + 1) < 2 ^ 32) :
    slideArray [r, r, 0, 0] s = some ([r + 1, 0, 0, 0], s + 2 ^ (r + 1), true) := by
  have h0 : r ≠ 0 := by omega
  have i1 := incr_small h2
  have s1 := shl_small h2
  have hs1 : s + 2 ^ (r + 1) < 4294967296 := by simpa using hs
  have s2 : (s + 2 ^ (r + 1)) % 4294967296 = s + 2 ^ (r + 1) := Nat.mod_eq_of_lt hs1
  simp [slideArray, range_SIZE, loopM, slideStep, findTarget, findTargetFrom, scanCell, rd, wr,
    shl1, SIZE, h0, i1, s1, s2]

theorem slide_merged_then_equal (r : Nat) (h1 : 1 ≤ r) (h2 : r ≤ 28) :
    slideArray [r, r, r + 1, 0] 0 = some ([r + 1, r + 1, 0, 0], 2 ^ (r + 1), true) := by
  have h0 : r ≠ 0 := by omega
  have i1 := incr_small (v := r) (by omega)
  have s1 := shl_small (v := r) (by omega)
  simp [slideArray, range_SIZE, loopM, slideStep, findTarget, findTargetFrom, scanCell, rd, wr,
    shl1, SIZE, h0, i1, s1]

theorem slide_two_pairs (r : Nat) (h1 : 1 ≤ r) (h2 : r ≤ 28) :
    slideArray [r, r, r + 1, r + 1] 0 =
      some ([r + 1, r + 2, 0, 0], 2 ^ (r + 1) + 2 ^ (r + 2), true) := by
  have h0 : r ≠ 0 := by omega
  have i1 := incr_small (v := r) (by omega)
  have i2 := incr_small (v := r + 1) (by omega)
  have s1 := shl_small (v := r) (by omega)
  have s2 := shl_small (v := r + 1) (by omega)
  have s3 := shl_small2 (u := r) (v := r + 1) (by omega) (by omega)
  simp [slideArray, range_SIZE, loopM, slideStep, findTarget, findTargetFrom, scanCell, rd, wr,
    shl1, SIZE, h0, i1, i2, s1, s2, s3]

theorem slide_empty (s : Nat) : slideArray [0, 0, 0, 0] s = some ([0, 0, 0, 0], s, false) := by
  simp [slideArray, range_SIZE, loopM, slideStep, rd]

theorem moveUp_empty (s : Nat) :
    moveUp [[0, 0, 0, 0], [0, 0, 0, 0], [0, 0, 0, 0], [0, 0, 0, 0]] s =
      some ([[0, 0, 0, 0], [0, 0, 0, 0], [0, 0, 0, 0], [0, 0, 0, 0]], s, false) := by
  simp only [moveUp, range_SIZE, loopM, moveUpStep, List.getD_cons_zero, List.getD_cons_succ,
    slide_empty, List.set_cons_zero, List.set_cons_succ, Bool.or_false]

theorem moveLeft_empty (s : Nat) :
    moveLeft [[0, 0, 0, 0], [0, 0, 0, 0], [0, 0, 0, 0], [0, 0, 0, 0]] s =
      some ([[0, 0, 0, 0], [0, 0, 0, 0], [0, 0, 0, 0], [0, 0, 0, 0]], s, false) := by
  unfold moveLeft
  simp only [rotate_lit]
  rw [moveUp_empty]
  simp only [rotate_lit]

theorem moveDown_empty (s : Nat) :
    moveDown [[0, 0, 0, 0], [0, 0, 0, 0], [0, 0, 0, 0], [0, 0, 0, 0]] s =
      some ([[0, 0, 0, 0], [0, 0, 0, 0], [0, 0, 0, 0], [0, 0, 0, 0]], s, false) := by
  unfold moveDown
  simp only [rotate_lit]
  rw [moveUp_empty]
  simp only [rotate_lit]

theorem moveRight_empty (s : Nat) :
    moveRight [[0, 0, 0, 0], [0, 0, 0, 0], [0, 0, 0, 0], [0, 0, 0, 0]] s =
      some ([[0, 0, 0, 0], [0, 0, 0, 0], [0, 0, 0, 0], [0, 0, 0, 0]], s, false) := by
  unfold moveRight
  simp only [rotate_lit]
  rw [moveUp_empty]
  simp only [rotate_lit]

/-! ## Columns that cannot move, and the rotation as a permutation -/

theorem mem_board_col {board : Board} {l : Row} (h : l ∈ board) :
    ∃ x, x < board.length ∧ l = board.getD x [] := by
  obtain ⟨x, hx, he⟩ := List.mem_iff_getElem.1 h
  exact ⟨x, hx, by rw [List.getD_eq_getElem _ _ hx, he]⟩

theorem moveUp_of_columns_stuck (board : Board) (score : Nat) (hb : WfBoard board)
    (hs : score < 2 ^ 32) (hst : ∀ l ∈ board, Stuck l) :
    moveUp board score = some (board, score, false) := by
  obtain ⟨rs, delta, flag, _, hm, _, hne, hz, hiff⟩ := applyMove_spec Dir.up board score hb hs
  have hf : flag = false := hiff.2 hst
  subst hf
  have hs1 : score < 4294967296 := by simpa using hs
  have e1 : unlines Dir.up rs = board := by
    by_contra hc
    exact absurd (hne.2 hc) (by decide)
  have e2 : (score + delta) % 2 ^ 32 = score := by
    rw [hz rfl, Nat.add_zero]
    exact Nat.mod_eq_of_lt hs
  rw [e1, e2] at hm
  exact hm

theorem rotate_perm {board : Board} (hb : WfBoard board) :
    (rotateBoard board).flatten.Perm board.flatten := by
  obtain ⟨a0, a1, a2, a3, b0, b1, b2, b3, c0, c1, c2, c3, d0, d1, d2, d3, rfl⟩ := wfBoard_cases hb
  rw [rotate_lit, List.perm_iff_count]
  intro v
  simp only [List.flatten, List.cons_append, List.nil_append, List.count_cons, List.count_nil]
  omega

/-! ## Room for the spawn after a move -/

theorem slide_row_last (row : Row) (hw : WfRow row) :
    ∃ r delta flag, slideArray row 0 = some (r, delta, flag) ∧ (flag = true → rd r 3 = 0) := by
  obtain ⟨a, b, c, d, rfl⟩ := wfRow_cases hw
  obtain ⟨a1, b1, c1, d1, delta, flag, h⟩ := slide_shape4 a b c d
  obtain ⟨_, _, _, f4, _⟩ := slide_facts4 a b c d _ _ _ h
  exact ⟨_, _, _, h, f4⟩

theorem slideLines_last_zero (lines : List Row) (hl : ∀ l ∈ lines, WfRow l) :
    ∀ rs delta flag, slideLines lines = some (rs, delta, flag) → flag = true →
      ∃ r ∈ rs, rd r 3 = 0 := by
  induction lines with
  | nil =>
    intro rs delta flag h hf
    simp only [slideLines, Option.some.injEq, Prod.mk.injEq] at h
    rw [← h.2.2] at hf
    exact absurd hf (by decide)
  | cons line rest ih =>
    intro rs delta flag h hf
    obtain ⟨rs1, deltas, flags, h1, _⟩ :=
      slideLines_spec rest (fun l hmem => hl l (List.mem_cons_of_mem _ hmem))
    obtain ⟨r, d, g, h2, hlast⟩ := slide_row_last line (hl line (List.mem_cons_self _ _))
    simp only [slideLines, h1, h2, Option.some.injEq, Prod.mk.injEq] at h
    obtain ⟨rfl, _, rfl⟩ := h
    cases g
    · have hf1 : flags = true := by simpa using hf
      obtain ⟨r1, hr1, hz⟩ :=
        ih (fun l hmem => hl l (List.mem_cons_of_mem _ hmem)) rs1 deltas flags h1 hf1
      exact ⟨r1, List.mem_cons_of_mem _ hr1, hz⟩
    · exact ⟨r, List.mem_cons_self _ _, hlast rfl⟩

theorem unlines_zero (dir : Dir) {lines : List Row} (hw : WfBoard lines) {r : Row}
    (hr : r ∈ lines) (h0 : rd r 3 = 0) :
    ∃ x y, x < 4 ∧ y < 4 ∧ rd2 (unlines dir lines) x y = 0 := by
  obtain ⟨a0, a1, a2, a3, b0, b1, b2, b3, c0, c1, c2, c3, d0, d1, d2, d3, rfl⟩ := wfBoard_cases hw
  simp only [List.mem_cons, List.mem_singleton, List.not_mem_nil, or_false] at hr
  rcases hr with rfl | rfl | rfl | rfl <;>
    simp only [rd, List.getD_cons_zero, List.getD_cons_succ] at h0 <;> subst h0 <;>
    cases dir <;>
    simp only [unlines, ofRows, range_SIZE, rd2, rd, List.map, List.getD_cons_zero,
      List.getD_cons_succ, List.reverse_cons, List.reverse_nil, List.nil_append,
      List.cons_append] <;>
    first
      | exact ⟨0, 3, by decide, by decide, rfl⟩
      | exact ⟨1, 3, by decide, by decide, rfl⟩
      | exact ⟨2, 3, by decide, by decide, rfl⟩
      | exact ⟨3, 3, by decide, by decide, rfl⟩
      | exact ⟨0, 0, by decide, by decide, rfl⟩
      | exact ⟨1, 0, by decide, by decide, rfl⟩
      | exact ⟨2, 0, by decide, by decide, rfl⟩
      | exact ⟨3, 0, by decide, by decide, rfl⟩
      | exact ⟨3, 1, by decide, by decide, rfl⟩
      | exact ⟨3, 2, by decide, by decide, rfl⟩
      | exact ⟨0, 1, by decide, by decide, rfl⟩
      | exact ⟨0, 2, by decide, by decide, rfl⟩

theorem spawnHasRoom_applyMove (dir : Dir) (board : Board) (score : Nat) (hb : WfBoard board)
    (hs : score < 2 ^ 32) : SpawnHasRoom (applyMove dir board score) := by
  obtain ⟨rs, delta, flag, h, hm, _, _, _, _⟩ := applyMove_spec dir board score hb hs
  have hw := linesOf_wf dir hb
  obtain ⟨rs1, d1, f1, h1, hlen, hwf, _⟩ := slideLines_spec _ hw.2
  rw [h] at h1
  simp only [Option.some.injEq, Prod.mk.injEq] at h1
  obtain ⟨rfl, rfl, rfl⟩ := h1
  have hrs : WfBoard rs := ⟨by rw [hlen]; exact hw.1, hwf⟩
  refine ⟨_, _, _, hm, ?_⟩
  intro hf
  obtain ⟨r, hr, hz⟩ := slideLines_last_zero _ hw.2 rs delta flag h hf
  obtain ⟨x, y, hx, hy, h0⟩ := unlines_zero dir hrs hr hz
  refine ⟨⟨x, y, hx, hy, h0⟩, ?_⟩
  exact List.length_pos_of_mem ((mem_emptyCells (unlines dir rs) x y).2 ⟨hx, hy, h0⟩)

/-! ## Conservation of the tile value -/

theorem incr_lt {v : Nat} (h : v < 255) : (v + 1) % 256 = v + 1 :=
  Nat.mod_eq_of_lt (by omega)

set_option maxHeartbeats 4000000 in
theorem slide_value4 (a b c d : Nat) (ha : a < 255) (hb : b < 255) (hc : c < 255) (hd : d < 255)
    (r : Row) (delta : Nat) (flag : Bool)
    (h : slideArray [a, b, c, d] 0 = some (r, delta, flag)) :
    totalValue [r] = totalValue [[a, b, c, d]] ∧ tileCount [r] ≤ tileCount [[a, b, c, d]] := by
  have ia := incr_lt ha
  have ib := incr_lt hb
  have ic := incr_lt hc
  have id := incr_lt hd
  revert h
  by_cases a0 : a = 0 <;> by_cases b0 : b = 0 <;> by_cases c0 : c = 0 <;> by_cases d0 : d = 0 <;>
  by_cases ab : a = b <;> by_cases ac : a = c <;> by_cases ad : a = d <;>
  by_cases bc : b = c <;> by_cases bd : b = d <;> by_cases cd : c = d <;>
  (try subst_vars) <;> (try omega) <;>
  simp [slideArray, range_SIZE, loopM, slideStep, findTarget, findTargetFrom, scanCell, rd, wr,
    SIZE, *] <;>
  intro h1 h2 h3 <;> subst h1 h2 h3 <;>
  simp [totalValue, tileCount, cellValue, cellTile, pow_succ, *] <;> omega

theorem totalValue_cons (l : Row) (ls : List Row) :
    totalValue (l :: ls) = totalValue [l] + totalValue ls := by
  simp [totalValue]

theorem tileCount_cons (l : Row) (ls : List Row) :
    tileCount (l :: ls) = tileCount [l] + tileCount ls := by
  simp [tileCount]

theorem slide_row_value (row : Row) (hw : WfRow row) (hbd : ∀ v ∈ row, v < 255) :
    ∃ r delta flag, slideArray row 0 = some (r, delta, flag) ∧
      totalValue [r] = totalValue [row] ∧ tileCount [r] ≤ tileCount [row] := by
  obtain ⟨a, b, c, d, rfl⟩ := wfRow_cases hw
  obtain ⟨a1, b1, c1, d1, delta, flag, h⟩ := slide_shape4 a b c d
  obtain ⟨h1, h2⟩ := slide_value4 a b c d (hbd a (by simp)) (hbd b (by simp)) (hbd c (by simp))
    (hbd d (by simp)) _ _ _ h
  exact ⟨_, _, _, h, h1, h2⟩

theorem slideLines_value (lines : List Row) (hl : ∀ l ∈ lines, WfRow l)
    (hbd : ∀ l ∈ lines, ∀ v ∈ l, v < 255) :
    ∀ rs delta flag, slideLines lines = some (rs, delta, flag) →
      totalValue rs = totalValue lines ∧ tileCount rs ≤ tileCount lines := by
  induction lines with
  | nil =>
    intro rs delta flag h
    simp only [slideLines, Option.some.injEq, Prod.mk.injEq] at h
    rw [← h.1]
    exact ⟨rfl, Nat.le_refl _⟩
  | cons line rest ih =>
    intro rs delta flag h
    obtain ⟨rs1, deltas, flags, h1, _⟩ :=
      slideLines_spec rest (fun l hmem => hl l (List.mem_cons_of_mem _ hmem))
    obtain ⟨r, d, g, h2, hv, hc⟩ := slide_row_value line (hl line (List.mem_cons_self _ _))
      (hbd line (List.mem_cons_self _ _))
    simp only [slideLines, h1, h2, Option.some.injEq, Prod.mk.injEq] at h
    obtain ⟨rfl, _, _⟩ := h
    obtain ⟨hv1, hc1⟩ := ih (fun l hmem => hl l (List.mem_cons_of_mem _ hmem))
      (fun l hmem => hbd l (List.mem_cons_of_mem _ hmem)) rs1 deltas flags h1
    rw [totalValue_cons r, totalValue_cons line, tileCount_cons r, tileCount_cons line]
    exact ⟨by omega, by omega⟩

theorem unlines_value (dir : Dir) {lines : List Row} (hw : WfBoard lines) :
    totalValue (unlines dir lines) = totalValue lines ∧
      tileCount (unlines dir lines) = tileCount lines := by
  obtain ⟨a0, a1, a2, a3, b0, b1, b2, b3, c0, c1, c2, c3, d0, d1, d2, d3, rfl⟩ := wfBoard_cases hw
  cases dir <;>
    simp only [unlines, ofRows, range_SIZE, rd, List.map, List.getD_cons_zero,
      List.getD_cons_succ, List.reverse_cons, List.reverse_nil, List.nil_append,
      List.cons_append, totalValue, tileCount, List.flatten, List.sum_cons, List.sum_nil,
      Nat.add_zero] <;>
    constructor <;> first | omega | exact True.intro

theorem linesOf_bound (dir : Dir) {board : Board} (hb : WfBoard board)
    (hbd : ∀ x y, x < 4 → y < 4 → rd2 board x y < 255) :
    ∀ l ∈ linesOf dir board, ∀ v ∈ l, v < 255 := by
  obtain ⟨a0, a1, a2, a3, b0, b1, b2, b3, c0, c1, c2, c3, d0, d1, d2, d3, rfl⟩ := wfBoard_cases hb
  have h := fun x hx y hy => hbd x y hx hy
  simp only [forall_lt_four, rd2, rd, List.getD_cons_zero, List.getD_cons_succ] at h
  cases dir <;>
    simp only [linesOf, rowsOf, rowOf, range_SIZE, rd2, rd, List.map, List.getD_cons_zero,
      List.getD_cons_succ, List.reverse_cons, List.reverse_nil, List.nil_append,
      List.cons_append, List.mem_cons, List.mem_singleton, List.not_mem_nil, or_false,
      forall_eq_or_imp, forall_eq] <;>
    omega

theorem conservesValue_applyMove (dir : Dir) (board : Board) (score : Nat) (hb : WfBoard board)
    (hs : score < 2 ^ 32) (hbd : ∀ x y, x < 4 → y < 4 → rd2 board x y < 255) :
    ConservesValue (applyMove dir board score) board := by
  obtain ⟨rs, delta, flag, h, hm, _, _, _, _⟩ := applyMove_spec dir board score hb hs
  have hw := linesOf_wf dir hb
  obtain ⟨rs1, d1, f1, h1, hlen, hwf, _⟩ := slideLines_spec _ hw.2
  rw [h] at h1
  simp only [Option.some.injEq, Prod.mk.injEq] at h1
  obtain ⟨rfl, rfl, rfl⟩ := h1
  have hrs : WfBoard rs := ⟨by rw [hlen]; exact hw.1, hwf⟩
  obtain ⟨hv, hc⟩ := slideLines_value _ hw.2 (linesOf_bound dir hb hbd) rs delta flag h
  obtain ⟨u1, u2⟩ := unlines_value dir hrs
  obtain ⟨v1, v2⟩ := unlines_value dir hw
  rw [unlines_linesOf dir hb] at v1 v2
  refine ⟨_, _, _, hm, ?_, ?_⟩
  · rw [u1, hv, v1]
  · rw [u2, v2]
    exact hc

/-! ## The scan of `findTarget` -/

theorem findTargetFrom_spec (array : Row) (x stop : Nat) :
    ∀ t, stop ≤ t → ∃ r, findTargetFrom array x stop t = some r ∧ stop ≤ r ∧ r ≤ t + 1 := by
  intro t
  induction t with
  | zero =>
    intro h
    have h0 : stop = 0 := by omega
    subst h0
    simp only [findTargetFrom, scanCell]
    by_cases h1 : rd array 0 ≠ 0
    · by_cases h2 : rd array 0 ≠ rd array x
      · exact ⟨1, by simp [h1, h2], by omega, by omega⟩
      · exact ⟨0, by simp [h1, h2], by omega, by omega⟩
    · exact ⟨0, by simp [h1], by omega, by omega⟩
  | succ t ih =>
    intro h
    simp only [findTargetFrom, scanCell]
    by_cases h1 : rd array (t + 1) ≠ 0
    · by_cases h2 : rd array (t + 1) ≠ rd array x
      · exact ⟨t + 1 + 1, by simp [h1, h2], by omega, by omega⟩
      · exact ⟨t + 1, by simp [h1, h2], by omega, by omega⟩
    · by_cases h3 : t + 1 = stop
      · subst h3
        exact ⟨t + 1, by simp [h1], by omega, by omega⟩
      · obtain ⟨r, hr, hr1, hr2⟩ := ih (by omega)
        exact ⟨r, by simp [h1, h3, hr], hr1, by omega⟩

theorem findTarget_spec (array : Row) (x stop : Nat) (h : x = 0 ∨ stop < x) :
    ∃ t, findTarget array x stop = some t ∧ (x = 0 → t = 0) ∧ (stop < x → stop ≤ t ∧ t ≤ x) := by
  by_cases hx : x = 0
  · subst hx
    exact ⟨0, by simp [findTarget], fun _ => rfl, fun h1 => absurd h1 (by omega)⟩
  · have hlt : stop < x := by omega
    obtain ⟨r, hr, hr1, hr2⟩ := findTargetFrom_spec array x stop (x - 1) (by omega)
    exact ⟨r, by simp [findTarget, hx, hr], fun h0 => absurd h0 hx, fun _ => ⟨hr1, by omega⟩⟩

set_option maxHeartbeats 4000000 in
theorem slideCalls_safe4 (a b c d s : Nat) : ∀ call ∈ slideCalls [a, b, c, d] s, SafeCall call := by
  by_cases a0 : a = 0 <;> by_cases b0 : b = 0 <;> by_cases c0 : c = 0 <;> by_cases d0 : d = 0 <;>
  by_cases ab : a = b <;> by_cases ac : a = c <;> by_cases ad : a = d <;>
  by_cases bc : b = c <;> by_cases bd : b = d <;> by_cases cd : c = d <;>
  (try subst_vars) <;> (try omega) <;>
  simp [slideCalls, callsFrom, range_SIZE, slideStep, findTarget, findTargetFrom, scanCell, rd, wr,
    SIZE, SafeCall, WfRow, *]

/-! ## The claims -/

/-- C1: for every row of four ranks, each at most 29, `slideArray` from score
0 leaves exactly the reference result (the non-empty ranks in index order,
equal neighbours merged once from index 0, padded with zeros) and the
reference score delta (the sum of `2 ^ (u + 1)` over the merges); the thirteen
rows of the self-test table are such rows, and the table lists for each the
reference row and points. -/
theorem slideArray_matches_reference (row : Row) (hw : WfRow row) (hr : ∀ v ∈ row, v ≤ 29) :
    (slideArray row 0).map (fun r => (r.1, r.2.1)) = some (slideRef row) ∧
      ∀ t ∈ testData, WfRow t.1 ∧ (∀ v ∈ t.1, v ≤ 29) ∧ slideRef t.1 = (t.2.1, t.2.2) ∧
        (slideArray t.1 0).map (fun r => (r.1, r.2.1)) = some (t.2.1, t.2.2) := by
  refine ⟨?_, by decide⟩
  obtain ⟨a, b, c, d, rfl⟩ := wfRow_cases hw
  exact slide_ref4 a b c d (hr a (by simp)) (hr b (by simp)) (hr c (by simp)) (hr d (by simp))

theorem slideArray_matches_reference_witness :
    WfRow [3, 0, 1, 1] ∧ (∀ v ∈ [3, 0, 1, 1], v ≤ 29) ∧
      ((slideArray [3, 0, 1, 1] 0).map (fun r => (r.1, r.2.1)) = some (slideRef [3, 0, 1, 1]) ∧
        ∀ t ∈ testData, WfRow t.1 ∧ (∀ v ∈ t.1, v ≤ 29) ∧ slideRef t.1 = (t.2.1, t.2.2) ∧
          (slideArray t.1 0).map (fun r => (r.1, r.2.1)) = some (t.2.1, t.2.2)) :=
  ⟨by decide, by decide, slideArray_matches_reference [3, 0, 1, 1] (by decide) (by decide)⟩

/-- C2: for every board and score, each rotation-based move equals the
direct per-line slides on the board in its original orientation: `moveUp`
slides every column read from row 0, `moveDown` every column read from row 3
(reversed, slid, reversed back), `moveLeft` every row read from column 0,
`moveRight` every row read from column 3; the score grows by the sum of the
four lines' deltas, the flag is the OR of the four lines' flags; and all of
them return. -/
theorem moves_equal_direct_slides (board : Board) (score : Nat) (hb : WfBoard board)
    (hs : score < 2 ^ 32) :
    moveUp board score = moveDirect Dir.up board score ∧
      moveDown board score = moveDirect Dir.down board score ∧
      moveLeft board score = moveDirect Dir.left board score ∧
      moveRight board score = moveDirect Dir.right board score ∧
      ∀ dir, (moveDirect dir board score).isSome = true := by
  refine ⟨applyMove_direct Dir.up board score hb hs, applyMove_direct Dir.down board score hb hs,
    applyMove_direct Dir.left board score hb hs, applyMove_direct Dir.right board score hb hs, ?_⟩
  intro dir
  obtain ⟨rs, delta, flag, _, hm, _⟩ := applyMove_spec dir board score hb hs
  rw [← applyMove_direct dir board score hb hs, hm]
  rfl

theorem moves_equal_direct_slides_witness :
    WfBoard [[1, 1, 0, 2], [0, 1, 0, 2], [3, 0, 3, 0], [0, 0, 0, 4]] ∧ 5 < 2 ^ 32 ∧
      (moveUp [[1, 1, 0, 2], [0, 1, 0, 2], [3, 0, 3, 0], [0, 0, 0, 4]] 5 =
          moveDirect Dir.up [[1, 1, 0, 2], [0, 1, 0, 2], [3, 0, 3, 0], [0, 0, 0, 4]] 5 ∧
        moveDown [[1, 1, 0, 2], [0, 1, 0, 2], [3, 0, 3, 0], [0, 0, 0, 4]] 5 =
          moveDirect Dir.down [[1, 1, 0, 2], [0, 1, 0, 2], [3, 0, 3, 0], [0, 0, 0, 4]] 5 ∧
        moveLeft [[1, 1, 0, 2], [0, 1, 0, 2], [3, 0, 3, 0], [0, 0, 0, 4]] 5 =
          moveDirect Dir.left [[1, 1, 0, 2], [0, 1, 0, 2], [3, 0, 3, 0], [0, 0, 0, 4]] 5 ∧
        moveRight [[1, 1, 0, 2], [0, 1, 0, 2], [3, 0, 3, 0], [0, 0, 0, 4]] 5 =
          moveDirect Dir.right [[1, 1, 0, 2], [0, 1, 0, 2], [3, 0, 3, 0], [0, 0, 0, 4]] 5 ∧
        ∀ dir, (moveDirect dir [[1, 1, 0, 2], [0, 1, 0, 2], [3, 0, 3, 0], [0, 0, 0, 4]] 5).isSome
          = true) :=
  ⟨by decide, by decide, moves_equal_direct_slides _ 5 (by decide) (by decide)⟩

/-- C3: for every board and starting score, each of `moveUp`, `moveLeft`,
`moveDown`, `moveRight` returns a flag that is true if and only if the board
after the call differs from the board before it, and leaves the score
unchanged when the flag is false; the same holds for `slideArray` on a row. -/
theorem flag_iff_changed (board : Board) (score : Nat) (row : Row) (hb : WfBoard board)
    (hs : score < 2 ^ 32) (hw : WfRow row) :
    ReportsChange (moveUp board score) board score ∧
      ReportsChange (moveLeft board score) board score ∧
      ReportsChange (moveDown board score) board score ∧
      ReportsChange (moveRight board score) board score ∧
      ∃ r s flag, slideArray row score = some (r, s, flag) ∧ (flag = true ↔ r ≠ row) ∧
        (flag = false → s = score) := by
  refine ⟨reportsChange_applyMove Dir.up board score hb hs,
    reportsChange_applyMove Dir.left board score hb hs,
    reportsChange_applyMove Dir.down board score hb hs,
    reportsChange_applyMove Dir.right board score hb hs, ?_⟩
  obtain ⟨r, delta, flag, h, _, hne, hz, _, _⟩ := slide_row_spec row hw
  have hs1 : score < 4294967296 := by simpa using hs
  have e := slide_score row hw score
  rw [Nat.mod_eq_of_lt hs1, h] at e
  refine ⟨r, (score + delta) % 4294967296, flag, e, hne, ?_⟩
  intro hf
  rw [hz hf, Nat.add_zero]
  exact Nat.mod_eq_of_lt hs1

theorem flag_iff_changed_witness :
    WfBoard [[1, 1, 0, 2], [0, 1, 0, 2], [3, 0, 3, 0], [0, 0, 0, 4]] ∧ 7 < 2 ^ 32 ∧
      WfRow [2, 2, 2, 0] ∧
      (ReportsChange (moveUp [[1, 1, 0, 2], [0, 1, 0, 2], [3, 0, 3, 0], [0, 0, 0, 4]] 7)
          [[1, 1, 0, 2], [0, 1, 0, 2], [3, 0, 3, 0], [0, 0, 0, 4]] 7 ∧
        ReportsChange (moveLeft [[1, 1, 0, 2], [0, 1, 0, 2], [3, 0, 3, 0], [0, 0, 0, 4]] 7)
          [[1, 1, 0, 2], [0, 1, 0, 2], [3, 0, 3, 0], [0, 0, 0, 4]] 7 ∧
        ReportsChange (moveDown [[1, 1, 0, 2], [0, 1, 0, 2], [3, 0, 3, 0], [0, 0, 0, 4]] 7)
          [[1, 1, 0, 2], [0, 1, 0, 2], [3, 0, 3, 0], [0, 0, 0, 4]] 7 ∧
        ReportsChange (moveRight [[1, 1, 0, 2], [0, 1, 0, 2], [3, 0, 3, 0], [0, 0, 0, 4]] 7)
          [[1, 1, 0, 2], [0, 1, 0, 2], [3, 0, 3, 0], [0, 0, 0, 4]] 7 ∧
        ∃ r s flag, slideArray [2, 2, 2, 0] 7 = some (r, s, flag) ∧
          (flag = true ↔ r ≠ [2, 2, 2, 0]) ∧ (flag = false → s = 7)) :=
  ⟨by decide, by decide, by decide, flag_iff_changed _ 7 _ (by decide) (by decide) (by decide)⟩

/-- C4: for every board, `gameEnded` returns true if and only if no cell is
empty, no two horizontally adjacent cells `board[x][y]`, `board[x+1][y]` hold
the same rank, and no two vertically adjacent cells `board[x][y]`,
`board[x][y+1]` hold the same rank. -/
theorem gameEnded_iff (board : Board) (hb : WfBoard board) :
    (gameEnded board).2 = true ↔
      (∀ x y, x < 4 → y < 4 → rd2 board x y ≠ 0) ∧
      (∀ x y, x < 3 → y < 4 → rd2 board x y ≠ rd2 board (x + 1) y) ∧
      (∀ x y, x < 4 → y < 3 → rd2 board x y ≠ rd2 board x (y + 1)) := by
  rw [gameEnded_cells board hb]
  constructor
  · rintro ⟨h1, h2, h3⟩
    exact ⟨fun x y hx hy => h1 x hx y hy, fun x y hx hy => h2 x hx y hy,
      fun x y hx hy => h3 x hx y hy⟩
  · rintro ⟨h1, h2, h3⟩
    exact ⟨fun x hx y hy => h1 x y hx hy, fun x hx y hy => h2 x y hx hy,
      fun x hx y hy => h3 x y hx hy⟩

theorem gameEnded_iff_witness :
    WfBoard [[1, 2, 1, 2], [2, 1, 2, 1], [1, 2, 1, 2], [2, 1, 2, 3]] ∧
      ((gameEnded [[1, 2, 1, 2], [2, 1, 2, 1], [1, 2, 1, 2], [2, 1, 2, 3]]).2 = true ↔
        (∀ x y, x < 4 → y < 4 →
          rd2 [[1, 2, 1, 2], [2, 1, 2, 1], [1, 2, 1, 2], [2, 1, 2, 3]] x y ≠ 0) ∧
        (∀ x y, x < 3 → y < 4 →
          rd2 [[1, 2, 1, 2], [2, 1, 2, 1], [1, 2, 1, 2], [2, 1, 2, 3]] x y ≠
            rd2 [[1, 2, 1, 2], [2, 1, 2, 1], [1, 2, 1, 2], [2, 1, 2, 3]] (x + 1) y) ∧
        (∀ x y, x < 4 → y < 3 →
          rd2 [[1, 2, 1, 2], [2, 1, 2, 1], [1, 2, 1, 2], [2, 1, 2, 3]] x y ≠
            rd2 [[1, 2, 1, 2], [2, 1, 2, 1], [1, 2, 1, 2], [2, 1, 2, 3]] x (y + 1))) :=
  ⟨by decide, gameEnded_iff _ (by decide)⟩

/-- C5: for every board that holds at least one tile, `gameEnded` returns
true if and only if none of `moveUp`, `moveLeft`, `moveDown`, `moveRight`
changes the board (each returns with the board as it was). -/
theorem gameEnded_iff_no_move (board : Board) (score : Nat) (hb : WfBoard board)
    (hs : score < 2 ^ 32) (ht : ∃ x y, x < 4 ∧ y < 4 ∧ rd2 board x y ≠ 0) :
    (gameEnded board).2 = true ↔
      (moveUp board score).map (fun r => r.1) = some board ∧
      (moveLeft board score).map (fun r => r.1) = some board ∧
      (moveDown board score).map (fun r => r.1) = some board ∧
      (moveRight board score).map (fun r => r.1) = some board := by
  rw [ended_iff_stuck board hb ht]
  have hu := noChange_iff Dir.up board score hb hs
  have hl := noChange_iff Dir.left board score hb hs
  have hd := noChange_iff Dir.down board score hb hs
  have hr := noChange_iff Dir.right board score hb hs
  simp only [applyMove] at hu hl hd hr
  rw [hu, hl, hd, hr]
  constructor
  · intro h
    exact ⟨h Dir.up, h Dir.left, h Dir.down, h Dir.right⟩
  · rintro ⟨h1, h2, h3, h4⟩ dir
    cases dir
    · exact h1
    · exact h2
    · exact h3
    · exact h4

theorem gameEnded_iff_no_move_witness :
    WfBoard [[1, 2, 1, 2], [2, 1, 2, 1], [1, 2, 1, 2], [2, 1, 2, 3]] ∧ 0 < 2 ^ 32 ∧
      (∃ x y, x < 4 ∧ y < 4 ∧
        rd2 [[1, 2, 1, 2], [2, 1, 2, 1], [1, 2, 1, 2], [2, 1, 2, 3]] x y ≠ 0) ∧
      ((gameEnded [[1, 2, 1, 2], [2, 1, 2, 1], [1, 2, 1, 2], [2, 1, 2, 3]]).2 = true ↔
        (moveUp [[1, 2, 1, 2], [2, 1, 2, 1], [1, 2, 1, 2], [2, 1, 2, 3]] 0).map (fun r => r.1) =
          some [[1, 2, 1, 2], [2, 1, 2, 1], [1, 2, 1, 2], [2, 1, 2, 3]] ∧
        (moveLeft [[1, 2, 1, 2], [2, 1, 2, 1], [1, 2, 1, 2], [2, 1, 2, 3]] 0).map (fun r => r.1) =
          some [[1, 2, 1, 2], [2, 1, 2, 1], [1, 2, 1, 2], [2, 1, 2, 3]] ∧
        (moveDown [[1, 2, 1, 2], [2, 1, 2, 1], [1, 2, 1, 2], [2, 1, 2, 3]] 0).map (fun r => r.1) =
          some [[1, 2, 1, 2], [2, 1, 2, 1], [1, 2, 1, 2], [2, 1, 2, 3]] ∧
        (moveRight [[1, 2, 1, 2], [2, 1, 2, 1], [1, 2, 1, 2], [2, 1, 2, 3]] 0).map (fun r => r.1) =
          some [[1, 2, 1, 2], [2, 1, 2, 1], [1, 2, 1, 2], [2, 1, 2, 3]]) :=
  ⟨by decide, by decide, ⟨0, 0, by decide, by decide, by decide⟩,
    gameEnded_iff_no_move _ 0 (by decide) (by decide) ⟨0, 0, by decide, by decide, by decide⟩⟩

/-- C6: for every board, `gameEnded` leaves all sixteen cells exactly as they
were before the call, on every return path. -/
theorem gameEnded_preserves_board (board : Board) (hb : WfBoard board) :
    (gameEnded board).1 = board :=
  gameEnded_board hb

theorem gameEnded_preserves_board_witness :
    WfBoard [[1, 2, 1, 2], [2, 1, 2, 1], [1, 2, 1, 2], [2, 1, 2, 3]] ∧
      (gameEnded [[1, 2, 1, 2], [2, 1, 2, 1], [1, 2, 1, 2], [2, 1, 2, 3]]).1 =
        [[1, 2, 1, 2], [2, 1, 2, 1], [1, 2, 1, 2], [2, 1, 2, 3]] :=
  ⟨by decide, gameEnded_preserves_board _ (by decide)⟩

/-- C7: for every board, applying `rotateBoard` four times in a row returns
every cell to its original content. -/
theorem rotateBoard_four_times (board : Board) (hb : WfBoard board) :
    rotateBoard (rotateBoard (rotateBoard (rotateBoard board))) = board :=
  rotate_four hb

theorem rotateBoard_four_times_witness :
    WfBoard [[1, 2, 3, 4], [5, 6, 7, 8], [9, 10, 11, 12], [13, 14, 15, 16]] ∧
      rotateBoard (rotateBoard (rotateBoard (rotateBoard
        [[1, 2, 3, 4], [5, 6, 7, 8], [9, 10, 11, 12], [13, 14, 15, 16]]))) =
        [[1, 2, 3, 4], [5, 6, 7, 8], [9, 10, 11, 12], [13, 14, 15, 16]] :=
  ⟨by decide, rotateBoard_four_times _ (by decide)⟩

/-- C8: for every board and every pair of values of the two random draws,
`addRandom` changes nothing when the board has no empty cell; otherwise it
changes exactly one cell, that cell was empty before the call, it holds rank
1 or rank 2 afterwards, every other cell is unchanged, and the number of
empty cells drops by exactly one. -/
theorem addRandom_changes_one_empty_cell (board : Board) (draw1 draw2 : Nat)
    (hb : WfBoard board) :
    ((∀ x y, x < 4 → y < 4 → rd2 board x y ≠ 0) → addRandom board draw1 draw2 = board) ∧
      ((∃ x y, x < 4 ∧ y < 4 ∧ rd2 board x y = 0) →
        ∃ x y, x < 4 ∧ y < 4 ∧ rd2 board x y = 0 ∧
          (rd2 (addRandom board draw1 draw2) x y = 1 ∨
            rd2 (addRandom board draw1 draw2) x y = 2) ∧
          (∀ x1 y1, x1 < 4 → y1 < 4 → (x1, y1) ≠ (x, y) →
            rd2 (addRandom board draw1 draw2) x1 y1 = rd2 board x1 y1) ∧
          countEmpty (addRandom board draw1 draw2) + 1 = countEmpty board) := by
  constructor
  · intro h
    exact addRandom_full board draw1 draw2 ((countEmpty_eq_zero board).2 h)
  · rintro ⟨x0, y0, hx0, hy0, h0⟩
    have hpos : 0 < countEmpty board := by
      rcases Nat.eq_zero_or_pos (countEmpty board) with hz | hp
      · exact absurd h0 ((countEmpty_eq_zero board).1 hz x0 y0 hx0 hy0)
      · exact hp
    have hmem := getD_mem (emptyCells board) (draw1 % countEmpty board) (0, 0)
      (by rw [length_emptyCells]; exact Nat.mod_lt _ hpos)
    obtain ⟨hx, hy, hz⟩ := (mem_emptyCells_pair board _).1 hmem
    have hv : (if draw2 % 10 = 9 then 2 else 1) ≠ 0 := by split <;> decide
    obtain ⟨_, hrd, hoth, hcnt⟩ := wr2_spec board hb _ _ _ hx hy hz hv
    rw [addRandom_eq board draw1 draw2 hpos]
    refine ⟨_, _, hx, hy, hz, ?_, hoth, hcnt⟩
    rw [hrd]
    split
    · exact Or.inr rfl
    · exact Or.inl rfl

theorem addRandom_changes_one_empty_cell_witness :
    WfBoard [[1, 1, 0, 1], [1, 0, 1, 1], [1, 1, 1, 1], [1, 1, 1, 0]] ∧
      (((∀ x y, x < 4 → y < 4 →
          rd2 [[1, 1, 0, 1], [1, 0, 1, 1], [1, 1, 1, 1], [1, 1, 1, 0]] x y ≠ 0) →
        addRandom [[1, 1, 0, 1], [1, 0, 1, 1], [1, 1, 1, 1], [1, 1, 1, 0]] 7 9 =
          [[1, 1, 0, 1], [1, 0, 1, 1], [1, 1, 1, 1], [1, 1, 1, 0]]) ∧
      ((∃ x y, x < 4 ∧ y < 4 ∧
          rd2 [[1, 1, 0, 1], [1, 0, 1, 1], [1, 1, 1, 1], [1, 1, 1, 0]] x y = 0) →
        ∃ x y, x < 4 ∧ y < 4 ∧
          rd2 [[1, 1, 0, 1], [1, 0, 1, 1], [1, 1, 1, 1], [1, 1, 1, 0]] x y = 0 ∧
          (rd2 (addRandom [[1, 1, 0, 1], [1, 0, 1, 1], [1, 1, 1, 1], [1, 1, 1, 0]] 7 9) x y = 1 ∨
            rd2 (addRandom [[1, 1, 0, 1], [1, 0, 1, 1], [1, 1, 1, 1], [1, 1, 1, 0]] 7 9) x y
              = 2) ∧
          (∀ x1 y1, x1 < 4 → y1 < 4 → (x1, y1) ≠ (x, y) →
            rd2 (addRandom [[1, 1, 0, 1], [1, 0, 1, 1], [1, 1, 1, 1], [1, 1, 1, 0]] 7 9) x1 y1 =
              rd2 [[1, 1, 0, 1], [1, 0, 1, 1], [1, 1, 1, 1], [1, 1, 1, 0]] x1 y1) ∧
          countEmpty (addRandom [[1, 1, 0, 1], [1, 0, 1, 1], [1, 1, 1, 1], [1, 1, 1, 0]] 7 9) + 1 =
            countEmpty [[1, 1, 0, 1], [1, 0, 1, 1], [1, 1, 1, 1], [1, 1, 1, 0]])) :=
  ⟨by decide, addRandom_changes_one_empty_cell _ 7 9 (by decide)⟩

/-- C9: for every board with `k >= 1` empty cells, the list of empty slots
`addRandom` collects has `k` entries, lists every empty cell and lists no
cell twice, so the cell chosen by the residue `draw1 % k` runs over the empty
cells once each as the residue runs over `0..k-1`; `addRandom` writes into
the cell of that residue, and the rank written is 2 exactly when
`draw2 % 10 = 9` and 1 for the other nine residues. -/
theorem addRandom_uniform (board : Board) (hb : WfBoard board) (hk : 1 ≤ countEmpty board) :
    (emptyCells board).length = countEmpty board ∧
      (∀ i, i < countEmpty board →
        ((emptyCells board).getD i (0, 0)).1 < 4 ∧ ((emptyCells board).getD i (0, 0)).2 < 4 ∧
          rd2 board ((emptyCells board).getD i (0, 0)).1 ((emptyCells board).getD i (0, 0)).2
            = 0) ∧
      (∀ i j, i < countEmpty board → j < countEmpty board →
        (emptyCells board).getD i (0, 0) = (emptyCells board).getD j (0, 0) → i = j) ∧
      (∀ x y, x < 4 → y < 4 → rd2 board x y = 0 →
        ∃ i, i < countEmpty board ∧ (emptyCells board).getD i (0, 0) = (x, y)) ∧
      (∀ draw1 draw2,
        addRandom board draw1 draw2 =
            wr2 board ((emptyCells board).getD (draw1 % countEmpty board) (0, 0)).1
              ((emptyCells board).getD (draw1 % countEmpty board) (0, 0)).2
              (if draw2 % 10 = 9 then 2 else 1) ∧
          rd2 (addRandom board draw1 draw2)
              ((emptyCells board).getD (draw1 % countEmpty board) (0, 0)).1
              ((emptyCells board).getD (draw1 % countEmpty board) (0, 0)).2 =
            if draw2 % 10 = 9 then 2 else 1) := by
  have hlen := length_emptyCells board
  have hmemi : ∀ i, i < countEmpty board →
      ((emptyCells board).getD i (0, 0)).1 < 4 ∧ ((emptyCells board).getD i (0, 0)).2 < 4 ∧
        rd2 board ((emptyCells board).getD i (0, 0)).1 ((emptyCells board).getD i (0, 0)).2
          = 0 := by
    intro i hi
    exact (mem_emptyCells_pair board _).1 (getD_mem _ i (0, 0) (by rw [hlen]; exact hi))
  refine ⟨hlen, hmemi, ?_, ?_, ?_⟩
  · intro i j hi hj h
    have hi1 : i < (emptyCells board).length := by rw [hlen]; exact hi
    have hj1 : j < (emptyCells board).length := by rw [hlen]; exact hj
    rw [List.getD_eq_getElem _ _ hi1, List.getD_eq_getElem _ _ hj1] at h
    exact (List.Nodup.getElem_inj_iff (emptyCells_nodup board)).1 h
  · intro x y hx hy h0
    obtain ⟨i, hi, he⟩ := List.mem_iff_getElem.1 ((mem_emptyCells board x y).2 ⟨hx, hy, h0⟩)
    refine ⟨i, by rw [← hlen]; exact hi, ?_⟩
    rw [List.getD_eq_getElem _ _ hi]
    exact he
  · intro draw1 draw2
    have hpos : 0 < countEmpty board := hk
    have e := addRandom_eq board draw1 draw2 hpos
    obtain ⟨hx, hy, hz⟩ := hmemi (draw1 % countEmpty board) (Nat.mod_lt _ hpos)
    have hv : (if draw2 % 10 = 9 then 2 else 1) ≠ 0 := by split <;> decide
    refine ⟨e, ?_⟩
    rw [e]
    exact (wr2_spec board hb _ _ _ hx hy hz hv).2.1

theorem addRandom_uniform_witness :
    WfBoard [[1, 1, 0, 1], [1, 0, 1, 1], [1, 1, 1, 1], [1, 1, 1, 0]] ∧
      1 ≤ countEmpty [[1, 1, 0, 1], [1, 0, 1, 1], [1, 1, 1, 1], [1, 1, 1, 0]] ∧
      (emptyCells [[1, 1, 0, 1], [1, 0, 1, 1], [1, 1, 1, 1], [1, 1, 1, 0]]).length =
        countEmpty [[1, 1, 0, 1], [1, 0, 1, 1], [1, 1, 1, 1], [1, 1, 1, 0]] :=
  ⟨by decide, by decide,
    (addRandom_uniform [[1, 1, 0, 1], [1, 0, 1, 1], [1, 1, 1, 1], [1, 1, 1, 0]] (by decide)
      (by decide)).1⟩

/-- C10, as the code has it: from a score near `2 ^ 32` one merge makes the
`uint32_t` score wrap, so the score after the move is smaller than before it
and is not the starting score plus the merge delta. -/
theorem score_wraps_counterexample :
    WfBoard [[1, 1, 0, 0], [0, 0, 0, 0], [0, 0, 0, 0], [0, 0, 0, 0]] ∧ 4294967292 < 2 ^ 32 ∧
      moveUp [[1, 1, 0, 0], [0, 0, 0, 0], [0, 0, 0, 0], [0, 0, 0, 0]] 4294967292 =
        some ([[2, 0, 0, 0], [0, 0, 0, 0], [0, 0, 0, 0], [0, 0, 0, 0]], 0, true) ∧
      runMoves [Dir.up] [[1, 1, 0, 0], [0, 0, 0, 0], [0, 0, 0, 0], [0, 0, 0, 0]] 4294967292 =
        some [(4, 0)] ∧
      ¬ (4294967292 ≤ 0) ∧ ¬ (0 = 4294967292 + 4) := by
  decide

/-- C10, amended: for every board, every starting score and every finite
sequence of moves in any directions, the moves all return and the final
score is the starting score plus the sum of the merge deltas of the moves
modulo `2 ^ 32`; when that sum stays below `2 ^ 32` (the score does not
wrap), the score after each move is greater than or equal to the score
before it and the final score equals the starting score plus the sum of the
merge deltas. -/
theorem score_monotone_without_wrap (board : Board) (score : Nat) (dirs : List Dir)
    (hb : WfBoard board) (hs : score < 2 ^ 32) :
    ∃ trace, runMoves dirs board score = some trace ∧ trace.length = dirs.length ∧
      (trace.map Prod.snd).getLastD score = (score + (trace.map Prod.fst).sum) % 2 ^ 32 ∧
      (score + (trace.map Prod.fst).sum < 2 ^ 32 →
        List.Chain (fun s1 s2 => s1 ≤ s2) score (trace.map Prod.snd) ∧
          (trace.map Prod.snd).getLastD score = score + (trace.map Prod.fst).sum) := by
  have hs1 : score < 4294967296 := by simpa using hs
  obtain ⟨trace, hr, hlen, hlast, hchain⟩ := runMoves_spec dirs board score hb hs1
  refine ⟨trace, hr, hlen, ?_, ?_⟩
  · rw [hlast]
    norm_num
  · intro hsum
    have hsum1 : score + (trace.map Prod.fst).sum < 4294967296 := by simpa using hsum
    refine ⟨hchain hsum1, ?_⟩
    rw [hlast]
    exact Nat.mod_eq_of_lt hsum1

theorem score_monotone_without_wrap_witness :
    WfBoard [[1, 1, 0, 0], [1, 1, 2, 0], [0, 0, 0, 0], [0, 0, 0, 3]] ∧ 10 < 2 ^ 32 ∧
      ∃ trace,
        runMoves [Dir.up, Dir.left, Dir.down]
          [[1, 1, 0, 0], [1, 1, 2, 0], [0, 0, 0, 0], [0, 0, 0, 3]] 10 = some trace ∧
        trace.length = [Dir.up, Dir.left, Dir.down].length ∧
        (trace.map Prod.snd).getLastD 10 = (10 + (trace.map Prod.fst).sum) % 2 ^ 32 ∧
        (10 + (trace.map Prod.fst).sum < 2 ^ 32 →
          List.Chain (fun s1 s2 => s1 ≤ s2) 10 (trace.map Prod.snd) ∧
            (trace.map Prod.snd).getLastD 10 = 10 + (trace.map Prod.fst).sum) :=
  ⟨by decide, by decide, score_monotone_without_wrap _ 10 _ (by decide) (by decide)⟩

/-- C11: for every rank `r` with `1 <= r <= 29`, `slideArray` on the row
`[r, r, r, 0]` with score 0 leaves `[r + 1, r, 0, 0]` with score delta
`2 ^ (r + 1)` and returns true: of three equal tiles only the pair nearest
index 0 merges. -/
theorem three_equal_merge_first_pair (r : Nat) (h1 : 1 ≤ r) (h2 : r ≤ 29) :
    slideArray [r, r, r, 0] 0 = some ([r + 1, r, 0, 0], 2 ^ (r + 1), true) :=
  slide_three_equal r h1 h2

theorem three_equal_merge_first_pair_witness :
    1 ≤ 1 ∧ 1 ≤ 29 ∧ slideArray [1, 1, 1, 0] 0 = some ([1 + 1, 1, 0, 0], 2 ^ (1 + 1), true) :=
  ⟨by decide, by decide, three_equal_merge_first_pair 1 (by decide) (by decide)⟩

/-- C12, as the code has it: two rank-1 tiles merged from score 0 leave score
4, not `0 + 2 ^ 1`. -/
theorem merge_score_counterexample :
    1 ≤ 1 ∧ 1 ≤ 29 ∧ slideArray [1, 1, 0, 0] 0 = some ([2, 0, 0, 0], 4, true) ∧
      ¬ (4 = 0 + 2 ^ 1) := by
  decide

/-- C12, amended: the score is incremented by `2 ^ (r + 1)`, the value of the
new tile, each time two rank-`r` tiles merge into a rank-`(r + 1)` tile: for
every rank `r` with `1 <= r <= 29` and every starting score `s` with
`s + 2 ^ (r + 1) < 2 ^ 32`, `slideArray` on the row `[r, r, 0, 0]` leaves
`[r + 1, 0, 0, 0]` and score `s + 2 ^ (r + 1)`. -/
theorem merge_score_new_tile_value (r s : Nat) (h1 : 1 ≤ r) (h2 : r ≤ 29)
    (hs : s + 2 ^ (r + 1) < 2 ^ 32) :
    slideArray [r, r, 0, 0] s = some ([r + 1, 0, 0, 0], s + 2 ^ (r + 1), true) :=
  slide_pair r s h1 h2 hs

theorem merge_score_new_tile_value_witness :
    1 ≤ 3 ∧ 3 ≤ 29 ∧ 100 + 2 ^ (3 + 1) < 2 ^ 32 ∧
      slideArray [3, 3, 0, 0] 100 = some ([3 + 1, 0, 0, 0], 100 + 2 ^ (3 + 1), true) :=
  ⟨by decide, by decide, by decide,
    merge_score_new_tile_value 3 100 (by decide) (by decide) (by decide)⟩

/-- C13, as the code has it: `slideArray` on `[2, 2, 1, 1]` with score 0 does
not end with score 8. -/
theorem slide_2211_counterexample :
    ¬ ∃ flag, slideArray [2, 2, 1, 1] 0 = some ([3, 2, 0, 0], 8, flag) := by
  decide

/-- C13, amended: `slideArray` on the row of ranks `[2, 2, 1, 1]` with score 0
leaves the row `[3, 2, 0, 0]` and a score delta of 12 (8 for the new rank-3
tile and 4 for the new rank-2 tile), as the self-test table lists it. -/
theorem slide_2211_scores_twelve :
    slideArray [2, 2, 1, 1] 0 = some ([3, 2, 0, 0], 12, true) ∧
      ([2, 2, 1, 1], [3, 2, 0, 0], 12) ∈ testData := by
  decide

/-- C14: on the all-empty board and for every starting score, each of
`moveUp`, `moveLeft`, `moveDown` and `moveRight` returns false, leaves the
score unchanged and leaves the board all-empty. -/
theorem moves_on_empty_board (score : Nat) :
    moveUp [[0, 0, 0, 0], [0, 0, 0, 0], [0, 0, 0, 0], [0, 0, 0, 0]] score =
        some ([[0, 0, 0, 0], [0, 0, 0, 0], [0, 0, 0, 0], [0, 0, 0, 0]], score, false) ∧
      moveLeft [[0, 0, 0, 0], [0, 0, 0, 0], [0, 0, 0, 0], [0, 0, 0, 0]] score =
        some ([[0, 0, 0, 0], [0, 0, 0, 0], [0, 0, 0, 0], [0, 0, 0, 0]], score, false) ∧
      moveDown [[0, 0, 0, 0], [0, 0, 0, 0], [0, 0, 0, 0], [0, 0, 0, 0]] score =
        some ([[0, 0, 0, 0], [0, 0, 0, 0], [0, 0, 0, 0], [0, 0, 0, 0]], score, false) ∧
      moveRight [[0, 0, 0, 0], [0, 0, 0, 0], [0, 0, 0, 0], [0, 0, 0, 0]] score =
        some ([[0, 0, 0, 0], [0, 0, 0, 0], [0, 0, 0, 0], [0, 0, 0, 0]], score, false) :=
  ⟨moveUp_empty score, moveLeft_empty score, moveDown_empty score, moveRight_empty score⟩

/-- C15, as the code has it: two boards with no two horizontally adjacent
cells equal and no tile with an empty cell below it on which `moveUp` reports
a change: a full board whose columns hold equal tiles one above the other,
and a board whose tiles have empty cells above them. -/
theorem moveUp_horizontal_counterexample :
    (WfBoard [[1, 1, 1, 1], [2, 2, 2, 2], [1, 1, 1, 1], [2, 2, 2, 2]] ∧
      (∀ x, x < 3 → ∀ y, y < 4 →
        rd2 [[1, 1, 1, 1], [2, 2, 2, 2], [1, 1, 1, 1], [2, 2, 2, 2]] x y ≠
          rd2 [[1, 1, 1, 1], [2, 2, 2, 2], [1, 1, 1, 1], [2, 2, 2, 2]] (x + 1) y) ∧
      (∀ x, x < 4 → ∀ y1, y1 < 4 → ∀ y, y < y1 →
        rd2 [[1, 1, 1, 1], [2, 2, 2, 2], [1, 1, 1, 1], [2, 2, 2, 2]] x y ≠ 0 →
          rd2 [[1, 1, 1, 1], [2, 2, 2, 2], [1, 1, 1, 1], [2, 2, 2, 2]] x y1 ≠ 0) ∧
      moveUp [[1, 1, 1, 1], [2, 2, 2, 2], [1, 1, 1, 1], [2, 2, 2, 2]] 0 =
        some ([[2, 2, 0, 0], [3, 3, 0, 0], [2, 2, 0, 0], [3, 3, 0, 0]], 48, true)) ∧
    (WfBoard [[0, 0, 0, 1], [1, 2, 1, 2], [0, 0, 0, 1], [1, 2, 1, 2]] ∧
      (∀ x, x < 3 → ∀ y, y < 4 →
        rd2 [[0, 0, 0, 1], [1, 2, 1, 2], [0, 0, 0, 1], [1, 2, 1, 2]] x y ≠
          rd2 [[0, 0, 0, 1], [1, 2, 1, 2], [0, 0, 0, 1], [1, 2, 1, 2]] (x + 1) y) ∧
      (∀ x, x < 4 → ∀ y1, y1 < 4 → ∀ y, y < y1 →
        rd2 [[0, 0, 0, 1], [1, 2, 1, 2], [0, 0, 0, 1], [1, 2, 1, 2]] x y ≠ 0 →
          rd2 [[0, 0, 0, 1], [1, 2, 1, 2], [0, 0, 0, 1], [1, 2, 1, 2]] x y1 ≠ 0) ∧
      moveUp [[0, 0, 0, 1], [1, 2, 1, 2], [0, 0, 0, 1], [1, 2, 1, 2]] 0 =
        some ([[1, 0, 0, 0], [1, 2, 1, 2], [1, 0, 0, 0], [1, 2, 1, 2]], 0, true)) := by
  refine ⟨⟨by decide, by decide, by decide, by decide⟩,
    ⟨by decide, by decide, by decide, by decide⟩⟩

/-- C15, amended: for every board in which no two vertically adjacent cells
(same column `x`, neighbouring rows `y` and `y + 1`) hold equal tiles and no
tile has an empty cell above it (same column, smaller row index `y`),
`moveUp` reports changed = false and leaves the board and the score as they
were. -/
theorem moveUp_unchanged_when_columns_packed (board : Board) (score : Nat) (hb : WfBoard board)
    (hs : score < 2 ^ 32)
    (hv : ∀ x y, x < 4 → y < 3 → rd2 board x y ≠ 0 → rd2 board x y ≠ rd2 board x (y + 1))
    (ha : ∀ x y y1, x < 4 → y < 4 → y1 < y → rd2 board x y ≠ 0 → rd2 board x y1 ≠ 0) :
    moveUp board score = some (board, score, false) := by
  apply moveUp_of_columns_stuck board score hb hs
  intro l hl
  obtain ⟨x, hx, rfl⟩ := mem_board_col hl
  have hx4 : x < 4 := by rw [hb.1] at hx; exact hx
  intro i hi h1
  have hi3 : i < 3 := hi
  have h2 : rd2 board x i ≠ 0 := ha x (i + 1) i hx4 (by omega) (by omega) h1
  exact ⟨h2, hv x i hx4 hi3 h2⟩

theorem moveUp_unchanged_when_columns_packed_witness :
    WfBoard [[1, 2, 0, 0], [3, 0, 0, 0], [0, 0, 0, 0], [1, 2, 1, 2]] ∧ 6 < 2 ^ 32 ∧
      moveUp [[1, 2, 0, 0], [3, 0, 0, 0], [0, 0, 0, 0], [1, 2, 1, 2]] 6 =
        some ([[1, 2, 0, 0], [3, 0, 0, 0], [0, 0, 0, 0], [1, 2, 1, 2]], 6, false) :=
  ⟨by decide, by decide,
    moveUp_unchanged_when_columns_packed _ 6 (by decide) (by decide)
      (by
        intro x y hx hy
        have hx4 : x = 0 ∨ x = 1 ∨ x = 2 ∨ x = 3 := by omega
        have hy3 : y = 0 ∨ y = 1 ∨ y = 2 := by omega
        rcases hx4 with rfl | rfl | rfl | rfl <;> rcases hy3 with rfl | rfl | rfl <;> decide)
      (by
        intro x y y1 hx hy hy1
        have hx4 : x = 0 ∨ x = 1 ∨ x = 2 ∨ x = 3 := by omega
        have hy4 : y = 0 ∨ y = 1 ∨ y = 2 ∨ y = 3 := by omega
        have hz4 : y1 = 0 ∨ y1 = 1 ∨ y1 = 2 ∨ y1 = 3 := by omega
        rcases hx4 with rfl | rfl | rfl | rfl <;> rcases hy4 with rfl | rfl | rfl | rfl <;>
          rcases hz4 with rfl | rfl | rfl | rfl <;> first | omega | decide)⟩

/-- C16: `rotateBoard` is an exact permutation of the cells: for every board
and all `i, j` in `0..3`, after the call `board[i][j]` holds what
`board[j][3 - i]` held before, that is, the tile at coordinate `(x, y)` goes
to `(3 - y, x)`; the board keeps its shape and its cells afterwards are a
permutation of its cells before, so no value is lost or duplicated. -/
theorem rotateBoard_permutes_cells (board : Board) (hb : WfBoard board) :
    (∀ i j, i < 4 → j < 4 → rd2 (rotateBoard board) i j = rd2 board j (3 - i)) ∧
      (∀ x y, x < 4 → y < 4 → rd2 (rotateBoard board) (3 - y) x = rd2 board x y) ∧
      WfBoard (rotateBoard board) ∧ (rotateBoard board).flatten.Perm board.flatten := by
  refine ⟨fun i j hi hj => rotate_rd2 hb i j hi hj, ?_, rotate_wf hb, rotate_perm hb⟩
  intro x y hx hy
  rw [rotate_rd2 hb (3 - y) x (by omega) hx]
  have e : 3 - (3 - y) = y := by omega
  rw [e]

theorem rotateBoard_permutes_cells_witness :
    WfBoard [[1, 2, 3, 4], [5, 6, 7, 8], [9, 10, 11, 12], [13, 14, 15, 16]] ∧
      ((∀ i j, i < 4 → j < 4 →
        rd2 (rotateBoard [[1, 2, 3, 4], [5, 6, 7, 8], [9, 10, 11, 12], [13, 14, 15, 16]]) i j =
          rd2 [[1, 2, 3, 4], [5, 6, 7, 8], [9, 10, 11, 12], [13, 14, 15, 16]] j (3 - i)) ∧
      (∀ x y, x < 4 → y < 4 →
        rd2 (rotateBoard [[1, 2, 3, 4], [5, 6, 7, 8], [9, 10, 11, 12], [13, 14, 15, 16]])
            (3 - y) x =
          rd2 [[1, 2, 3, 4], [5, 6, 7, 8], [9, 10, 11, 12], [13, 14, 15, 16]] x y) ∧
      WfBoard (rotateBoard [[1, 2, 3, 4], [5, 6, 7, 8], [9, 10, 11, 12], [13, 14, 15, 16]]) ∧
      (rotateBoard [[1, 2, 3, 4], [5, 6, 7, 8], [9, 10, 11, 12], [13, 14, 15, 16]]).flatten.Perm
        [[1, 2, 3, 4], [5, 6, 7, 8], [9, 10, 11, 12], [13, 14, 15, 16]].flatten) :=
  ⟨by decide, rotateBoard_permutes_cells _ (by decide)⟩

/-- C17: a tile produced by a merge does not merge again in the same slide:
for every rank `r` with `1 <= r <= 28`, `slideArray` on `[r, r, r + 1, 0]`
with score 0 leaves `[r + 1, r + 1, 0, 0]` with score delta `2 ^ (r + 1)`
(not `[r + 2, 0, 0, 0]`), and on `[r, r, r + 1, r + 1]` leaves
`[r + 1, r + 2, 0, 0]` with score delta `2 ^ (r + 1) + 2 ^ (r + 2)`. -/
theorem merged_tile_does_not_merge_again (r : Nat) (h1 : 1 ≤ r) (h2 : r ≤ 28) :
    slideArray [r, r, r + 1, 0] 0 = some ([r + 1, r + 1, 0, 0], 2 ^ (r + 1), true) ∧
      [r + 1, r + 1, 0, 0] ≠ [r + 2, 0, 0, 0] ∧
      slideArray [r, r, r + 1, r + 1] 0 =
        some ([r + 1, r + 2, 0, 0], 2 ^ (r + 1) + 2 ^ (r + 2), true) :=
  ⟨slide_merged_then_equal r h1 h2, by simp, slide_two_pairs r h1 h2⟩

theorem merged_tile_does_not_merge_again_witness :
    1 ≤ 1 ∧ 1 ≤ 28 ∧
      (slideArray [1, 1, 1 + 1, 0] 0 = some ([1 + 1, 1 + 1, 0, 0], 2 ^ (1 + 1), true) ∧
        [1 + 1, 1 + 1, 0, 0] ≠ [1 + 2, 0, 0, 0] ∧
        slideArray [1, 1, 1 + 1, 1 + 1] 0 =
          some ([1 + 1, 1 + 2, 0, 0], 2 ^ (1 + 1) + 2 ^ (1 + 2), true)) :=
  ⟨by decide, by decide, merged_tile_does_not_merge_again 1 (by decide) (by decide)⟩

/-- C18: for every board and each of the four moves, if the move returns true
(changed) then the resulting board has at least one empty cell, so the
`addRandom` call of the game loop after a successful move collects a
non-empty list of empty slots (its `len > 0` test holds). -/
theorem changed_move_leaves_empty_cell (board : Board) (score : Nat) (hb : WfBoard board)
    (hs : score < 2 ^ 32) :
    SpawnHasRoom (moveUp board score) ∧ SpawnHasRoom (moveLeft board score) ∧
      SpawnHasRoom (moveDown board score) ∧ SpawnHasRoom (moveRight board score) :=
  ⟨spawnHasRoom_applyMove Dir.up board score hb hs,
    spawnHasRoom_applyMove Dir.left board score hb hs,
    spawnHasRoom_applyMove Dir.down board score hb hs,
    spawnHasRoom_applyMove Dir.right board score hb hs⟩

theorem changed_move_leaves_empty_cell_witness :
    WfBoard [[1, 2, 1, 2], [2, 1, 2, 1], [1, 2, 1, 2], [2, 1, 3, 3]] ∧ 0 < 2 ^ 32 ∧
      (SpawnHasRoom (moveUp [[1, 2, 1, 2], [2, 1, 2, 1], [1, 2, 1, 2], [2, 1, 3, 3]] 0) ∧
        SpawnHasRoom (moveLeft [[1, 2, 1, 2], [2, 1, 2, 1], [1, 2, 1, 2], [2, 1, 3, 3]] 0) ∧
        SpawnHasRoom (moveDown [[1, 2, 1, 2], [2, 1, 2, 1], [1, 2, 1, 2], [2, 1, 3, 3]] 0) ∧
        SpawnHasRoom (moveRight [[1, 2, 1, 2], [2, 1, 2, 1], [1, 2, 1, 2], [2, 1, 3, 3]] 0)) :=
  ⟨by decide, by decide, changed_move_leaves_empty_cell _ 0 (by decide) (by decide)⟩

/-- C19: every move conserves the total tile value: for every board whose
ranks are all below 255 and each of the four moves, the sum of `2 ^ rank`
over the non-empty cells is the same after the move as before it, and the
number of tiles does not increase. -/
theorem moves_conserve_tile_value (board : Board) (score : Nat) (hb : WfBoard board)
    (hs : score < 2 ^ 32) (hbd : ∀ x y, x < 4 → y < 4 → rd2 board x y < 255) :
    ConservesValue (moveUp board score) board ∧ ConservesValue (moveLeft board score) board ∧
      ConservesValue (moveDown board score) board ∧
      ConservesValue (moveRight board score) board :=
  ⟨conservesValue_applyMove Dir.up board score hb hs hbd,
    conservesValue_applyMove Dir.left board score hb hs hbd,
    conservesValue_applyMove Dir.down board score hb hs hbd,
    conservesValue_applyMove Dir.right board score hb hs hbd⟩

theorem moves_conserve_tile_value_witness :
    WfBoard [[1, 1, 0, 2], [0, 1, 0, 2], [3, 0, 3, 0], [0, 0, 0, 4]] ∧ 0 < 2 ^ 32 ∧
      (∀ x y, x < 4 → y < 4 →
        rd2 [[1, 1, 0, 2], [0, 1, 0, 2], [3, 0, 3, 0], [0, 0, 0, 4]] x y < 255) ∧
      (ConservesValue (moveUp [[1, 1, 0, 2], [0, 1, 0, 2], [3, 0, 3, 0], [0, 0, 0, 4]] 0)
          [[1, 1, 0, 2], [0, 1, 0, 2], [3, 0, 3, 0], [0, 0, 0, 4]] ∧
        ConservesValue (moveLeft [[1, 1, 0, 2], [0, 1, 0, 2], [3, 0, 3, 0], [0, 0, 0, 4]] 0)
          [[1, 1, 0, 2], [0, 1, 0, 2], [3, 0, 3, 0], [0, 0, 0, 4]] ∧
        ConservesValue (moveDown [[1, 1, 0, 2], [0, 1, 0, 2], [3, 0, 3, 0], [0, 0, 0, 4]] 0)
          [[1, 1, 0, 2], [0, 1, 0, 2], [3, 0, 3, 0], [0, 0, 0, 4]] ∧
        ConservesValue (moveRight [[1, 1, 0, 2], [0, 1, 0, 2], [3, 0, 3, 0], [0, 0, 0, 4]] 0)
          [[1, 1, 0, 2], [0, 1, 0, 2], [3, 0, 3, 0], [0, 0, 0, 4]]) :=
  have hbd : ∀ x y, x < 4 → y < 4 →
      rd2 [[1, 1, 0, 2], [0, 1, 0, 2], [3, 0, 3, 0], [0, 0, 0, 4]] x y < 255 := by
    intro x y hx hy
    have hx4 : x = 0 ∨ x = 1 ∨ x = 2 ∨ x = 3 := by omega
    have hy4 : y = 0 ∨ y = 1 ∨ y = 2 ∨ y = 3 := by omega
    rcases hx4 with rfl | rfl | rfl | rfl <;> rcases hy4 with rfl | rfl | rfl | rfl <;> decide
  ⟨by decide, by decide, hbd, moves_conserve_tile_value _ 0 (by decide) (by decide) hbd⟩

/-- C20: the unbounded downward scan of `findTarget` is safe inside
`slideArray`: for every row of four ranks, every call `slideArray` makes to
`findTarget` is on a row of four cells with `x` an index of it and `x = 0`
(then `stop = 0`) or `stop < x`, and returns a target `t` with
`stop <= t <= x`; and for every row, `x` and `stop` with `x = 0` or
`stop < x`, `findTarget` returns (its index never steps below 0) a target `t`
with `t = 0` when `x = 0` and `stop <= t <= x` when `stop < x`; so
`slideArray` returns. -/
theorem findTarget_scan_safe (row : Row) (score : Nat) (hw : WfRow row) (hs : score < 2 ^ 32) :
    (∀ call ∈ slideCalls row score, SafeCall call ∧
        ∃ t, findTarget call.1 call.2.1 call.2.2 = some t ∧ call.2.2 ≤ t ∧ t ≤ call.2.1) ∧
      (∀ (array : Row) (x stop : Nat), x = 0 ∨ stop < x →
        ∃ t, findTarget array x stop = some t ∧ (x = 0 → t = 0) ∧
          (stop < x → stop ≤ t ∧ t ≤ x)) ∧
      (slideArray row score).isSome = true := by
  obtain ⟨a, b, c, d, rfl⟩ := wfRow_cases hw
  refine ⟨?_, findTarget_spec, ?_⟩
  · intro call hc
    have hsafe := slideCalls_safe4 a b c d score call hc
    refine ⟨hsafe, ?_⟩
    obtain ⟨_, _, hle, hor⟩ := hsafe
    obtain ⟨t, ht, h0, h1⟩ := findTarget_spec call.1 call.2.1 call.2.2 hor
    refine ⟨t, ht, ?_⟩
    rcases hor with hx | hlt
    · have ht0 := h0 hx
      omega
    · exact h1 hlt
  · have hs1 : score < 4294967296 := by simpa using hs
    obtain ⟨a1, b1, c1, d1, delta, flag, h⟩ := slide_shape4 a b c d
    have e := slide_score4 a b c d score
    rw [Nat.mod_eq_of_lt hs1, h] at e
    rw [e]
    rfl

theorem findTarget_scan_safe_witness :
    WfRow [1, 1, 1, 0] ∧ 0 < 2 ^ 32 ∧
      slideCalls [1, 1, 1, 0] 0 = [([1, 1, 1, 0], 0, 0), ([1, 1, 1, 0], 1, 0), ([2, 0, 1, 0], 2, 1)] ∧
      ((∀ call ∈ slideCalls [1, 1, 1, 0] 0, SafeCall call ∧
          ∃ t, findTarget call.1 call.2.1 call.2.2 = some t ∧ call.2.2 ≤ t ∧ t ≤ call.2.1) ∧
        (∀ (array : Row) (x stop : Nat), x = 0 ∨ stop < x →
          ∃ t, findTarget array x stop = some t ∧ (x = 0 → t = 0) ∧
            (stop < x → stop ≤ t ∧ t ≤ x)) ∧
        (slideArray [1, 1, 1, 0] 0).isSome = true) :=
  ⟨by decide, by decide, by decide, findTarget_scan_safe [1, 1, 1, 0] 0 (by decide) (by decide)⟩

end Game2048
